import Mathlib

/-!
# The distance-table plugin: `DistanceTablePlugin::HandleRequest`

A shallow embedding of `plugins/distance_table.hpp`.

* Vectors are lists. A read `v[k]` past the end of a vector, `front()` of an empty
  vector and an iterator moved past `end()` are undefined behaviour in the source: the
  embedding stops there with `Fault.out_of_range`.
* `unsigned` is 32 bits wide and `std::size_t` 64 bits wide; conversions and wrap-around
  are written out with `%`.
* The facade, the search engine, the hint codec, `PhantomNode::is_valid` and
  `BasePlugin::check_all_coordinates` are not part of the file; they are fields of
  `DistanceTablePlugin`, so the general theorems hold for every implementation of them.
* A run records, in program order, every read of a request vector and every call of a
  collaborator (`Event`), next to its result.
-/

set_option autoImplicit false

namespace DistanceTable

/-! ## Data model -/

/-- An `EdgeWeight` is an `int`. -/
abbrev EdgeWeight := Int

/-- A latitude/longitude pair in fixed-point representation. -/
structure FixedPointCoordinate where
  lat : Int
  lon : Int
deriving DecidableEq, Repr

/-- Modelled from the spec: `PhantomNode` is declared in `phantom_node.hpp`, which lies outside
this file. It carries the projected coordinate and the ids of the
enclosing segment; its validity predicate is `DistanceTablePlugin.is_valid`. -/
structure PhantomNode where
  forward_node_id : Nat
  reverse_node_id : Nat
  location : FixedPointCoordinate
deriving DecidableEq, Repr

/-- A `PhantomNodeArray` is a `std::vector<std::vector<PhantomNode>>`. -/
abbrev PhantomNodeArray := List (List PhantomNode)

/-- The fields of `RouteParameters` that `HandleRequest` reads. A bearing is a
`std::pair<int, boost::optional<int>>`. -/
structure RouteParameters where
  check_sum : Nat
  mapped_points : Bool
  hints : List String
  bearings : List (Int × Option Int)
  coordinates : List FixedPointCoordinate
  destinations : List FixedPointCoordinate
  sources : List FixedPointCoordinate

namespace json

/-- The JSON values `HandleRequest` stores in its result. `matrix` is an `Array` of
`Array`s of numbers. `coordinates` is an `Array` of two-element `Array`s
`[lat / COORDINATE_PRECISION, lon / COORDINATE_PRECISION]`; each is kept as the
fixed-point coordinate it is computed from, the floating-point division is not
evaluated. -/
inductive Value where
  | string (s : String)
  | matrix (rows : List (List EdgeWeight))
  | coordinates (points : List FixedPointCoordinate)
deriving DecidableEq, Repr

/-- The member `values` of an `osrm::json::Object`, as an association list with at most
one entry per key. -/
abbrev Object := List (String × Value)

/-- The assignment `values[key] = value`: overwrites the entry of `key` or adds one. -/
def Object.set (o : Object) (key : String) (value : Value) : Object :=
  (key, value) :: o.filter (fun entry => entry.1 != key)

/-- The entry of `key`, when there is one. -/
def Object.get (o : Object) (key : String) : Option Value :=
  o.lookup key

end json

/-- The facade `DataFacadeT`, as far as `HandleRequest` uses it.
`IncrementalFindPhantomNodeForCoordinate c n bearing range` is the content of the result
vector (empty before the call) after the call. -/
structure DataFacadeT where
  GetCheckSum : Nat
  GetNumberOfNodes : Nat
  IncrementalFindPhantomNodeForCoordinate :
    FixedPointCoordinate → Nat → Int → Int → List PhantomNode

/-- The plugin object: its two data members `facade` and `max_locations_distance_table`
(an `int`), and the code it calls that lies outside the file:
`search_engine_ptr->distance_table`, `BasePlugin::check_all_coordinates` (its second
argument is `none` where the call leaves it to the default),
`ObjectEncoder::DecodeFromBase64`, `PhantomNode::is_valid`, and whether `BOOST_ASSERT`
is compiled out (`NDEBUG`). -/
structure DistanceTablePlugin where
  facade : DataFacadeT
  max_locations_distance_table : Int
  distance_table : PhantomNodeArray → PhantomNodeArray → Option (List EdgeWeight)
  check_all_coordinates : List FixedPointCoordinate → Option Nat → Bool
  DecodeFromBase64 : String → PhantomNode
  is_valid : PhantomNode → Nat → Bool
  NDEBUG : Bool

/-! ## Runs -/

/-- What a run does, in program order: reads of the request vectors (with the index
read) and calls of the collaborators (with their arguments). -/
inductive Event where
  | hints (k : Nat)
  | input_bearings (k : Nat)
  | coordinates (k : Nat)
  | destinations (k : Nat)
  | sources (k : Nat)
  | DecodeFromBase64 (hint : String)
  | IncrementalFindPhantomNodeForCoordinate
      (c : FixedPointCoordinate) (number_of_results : Nat) (bearing range : Int)
  | distance_table (targets sources : PhantomNodeArray)
deriving DecidableEq, Repr

/-- The two ways a run stops without returning. -/
inductive Fault where
  | out_of_range
  | assertion
deriving DecidableEq, Repr

/-- The result of a run: a value, or the fault it stopped with. -/
inductive Outcome (α : Type) where
  | ok (a : α)
  | fault (f : Fault)
deriving DecidableEq, Repr

/-- A run: the events up to its end, and its outcome. -/
structure Run (α : Type) where
  trace : List Event
  result : Outcome α
deriving DecidableEq, Repr

/-- A run that does nothing and yields `a`. -/
def Run.pure {α : Type} (a : α) : Run α := ⟨[], .ok a⟩

/-- A run that stops with fault `f`. -/
def Run.fail {α : Type} (f : Fault) : Run α := ⟨[], .fault f⟩

/-- Sequencing: `k` runs on the value of `r`, unless `r` stopped with a fault. -/
def Run.bind {α β : Type} (r : Run α) (k : α → Run β) : Run β :=
  match r.result with
  | .ok a => ⟨r.trace ++ (k a).trace, (k a).result⟩
  | .fault f => ⟨r.trace, .fault f⟩

instance : Monad Run where
  pure := Run.pure
  bind := Run.bind

/-- The read `v[k]`, recorded as event `e`. -/
def Run.read {α : Type} (e : Event) (v : List α) (k : Nat) : Run α :=
  match v[k]? with
  | some a => ⟨[e], .ok a⟩
  | none => ⟨[e], .fault .out_of_range⟩

/-- A call of a collaborator, recorded as event `e`, that yields `a`. -/
def Run.call {α : Type} (e : Event) (a : α) : Run α := ⟨[e], .ok a⟩

/-- A loop `for (x : xs) ys.push_back(body(x))`. -/
def Run.collect {α β : Type} (body : α → Run β) : List α → Run (List β)
  | [] => Run.pure []
  | x :: xs => Run.bind (body x) fun y => Run.bind (Run.collect body xs) fun ys =>
      Run.pure (y :: ys)

/-! ## Machine integers -/

/-- The conversion `static_cast<unsigned>(x)` of an `int`. -/
def static_cast_unsigned (x : Int) : Nat := (x % 4294967296).toNat

/-- The conversion of a `std::size_t` to `unsigned`. -/
def size_to_unsigned (n : Nat) : Nat := n % 4294967296

/-! ## Location resolution (lines 93-148) -/

/-- Lines 103-104 and 131-132: the guard
`checksum_OK && i < bound && !route_parameters.hints[k].empty()`. The operands of `&&`
are evaluated left to right, so the hint is read only when the first two hold;
`in_bound` is the value of `i < bound`. -/
def hint_given (rp : RouteParameters) (checksum_OK in_bound : Bool) (k : Nat) : Run Bool :=
  if checksum_OK && in_bound then do
    let hint ← Run.read (.hints k) rp.hints k
    pure (!hint.isEmpty)
  else
    pure false

/-- Lines 106-107 and 134-135: `current_phantom_node`, decoded from
`route_parameters.hints[k]`. -/
def decode_hint (p : DistanceTablePlugin) (rp : RouteParameters) (k : Nat) :
    Run PhantomNode := do
  let hint ← Run.read (.hints k) rp.hints k
  Run.call (.DecodeFromBase64 hint) (p.DecodeFromBase64 hint)

/-- Lines 114 and 142: `input_bearings.size() > 0 ? input_bearings[k].first : 0`. -/
def bearing_at (rp : RouteParameters) (k : Nat) : Run Int :=
  if rp.bearings.length > 0 then do
    let b ← Run.read (.input_bearings k) rp.bearings k
    pure b.1
  else
    pure 0

/-- Lines 115 and 143: `input_bearings.size() > 0 ?
(input_bearings[k].second ? *input_bearings[k].second : 10) : 180`. -/
def range_at (rp : RouteParameters) (k : Nat) : Run Int :=
  if rp.bearings.length > 0 then do
    let b ← Run.read (.input_bearings k) rp.bearings k
    if b.2.isSome then do
      let b2 ← Run.read (.input_bearings k) rp.bearings k
      pure (b2.2.getD 10)
    else
      pure 10
  else
    pure 180

/-- Lines 119 and 147: `BOOST_ASSERT(v.front().is_valid(facade->GetNumberOfNodes()))`,
which is compiled out under `NDEBUG`. -/
def BOOST_ASSERT_front_is_valid (p : DistanceTablePlugin) (v : List PhantomNode) :
    Run Unit :=
  if p.NDEBUG then
    pure ()
  else
    match v with
    | [] => Run.fail .out_of_range
    | node :: _ =>
      if p.is_valid node p.facade.GetNumberOfNodes then pure () else Run.fail .assertion

/-- Lines 114-119 and 142-147: the nearest-edge search for the location read by
`location`, with the bearing of index `k`; the value is the vector the search filled. -/
def find_phantom_node (p : DistanceTablePlugin) (rp : RouteParameters)
    (location : Run FixedPointCoordinate) (k : Nat) : Run (List PhantomNode) := do
  let bearing ← bearing_at rp k
  let range ← range_at rp k
  let c ← location
  let v ← Run.call (.IncrementalFindPhantomNodeForCoordinate c 1 bearing range)
    (p.facade.IncrementalFindPhantomNodeForCoordinate c 1 bearing range)
  BOOST_ASSERT_front_is_valid p v
  pure v

/-- Lines 103-119 and 131-147, one iteration of a resolution loop: the entry
`phantom_node_vector[i]` it leaves. `in_bound` is the value of the bound check of the
guard, `k` the index used for hints and bearings, `location` the read of the location. -/
def resolve (p : DistanceTablePlugin) (rp : RouteParameters) (checksum_OK in_bound : Bool)
    (k : Nat) (location : Run FixedPointCoordinate) : Run (List PhantomNode) := do
  let given ← hint_given rp checksum_OK in_bound k
  if given then do
    let current_phantom_node ← decode_hint p rp k
    if p.is_valid current_phantom_node p.facade.GetNumberOfNodes then
      pure [current_phantom_node]
    else
      find_phantom_node p rp location k
  else
    find_phantom_node p rp location k

/-- Line 73: `useSameTgtSrc`. -/
def useSameTgtSrc (rp : RouteParameters) : Bool := rp.coordinates.length != 0

/-- Line 93: `checksum_OK`. -/
def checksum_OK (p : DistanceTablePlugin) (rp : RouteParameters) : Bool :=
  rp.check_sum == p.facade.GetCheckSum

/-- Lines 94-98: `max_locations` of the target loop. -/
def max_locations_target (p : DistanceTablePlugin) (rp : RouteParameters) : Nat :=
  if useSameTgtSrc rp then
    min (static_cast_unsigned p.max_locations_distance_table)
      (size_to_unsigned rp.coordinates.length)
  else
    min (static_cast_unsigned p.max_locations_distance_table)
      (size_to_unsigned rp.destinations.length)

/-- Line 121: `shift_coordinates`. -/
def shift_coordinates (rp : RouteParameters) : Nat :=
  if useSameTgtSrc rp then 0 else size_to_unsigned rp.destinations.length

/-- Lines 122-127: `max_locations` of the source loop. -/
def max_locations_source (p : DistanceTablePlugin) (rp : RouteParameters) : Nat :=
  if !useSameTgtSrc rp then
    min (static_cast_unsigned p.max_locations_distance_table)
      (size_to_unsigned rp.sources.length)
  else
    0

/-- Lines 103-119, the body of the target loop at `i`: the hint and the bearing are read
at index `i`, the location is `coordinates[i]` or `destinations[i]`. -/
def target_entry (p : DistanceTablePlugin) (rp : RouteParameters) (i : Nat) :
    Run (List PhantomNode) :=
  resolve p rp (checksum_OK p rp) (decide (i < rp.hints.length)) i
    (if useSameTgtSrc rp then Run.read (.coordinates i) rp.coordinates i
     else Run.read (.destinations i) rp.destinations i)

/-- Lines 131-147, the body of the source loop at `i`: the guard compares `i` with
`hints.size() - shift_coordinates`, computed in `std::size_t`; the hint and the bearing
are read at index `i + shift_coordinates`, computed in `unsigned`; the location is
`sources[i]`. -/
def source_entry (p : DistanceTablePlugin) (rp : RouteParameters) (i : Nat) :
    Run (List PhantomNode) :=
  resolve p rp (checksum_OK p rp)
    (decide (i < (rp.hints.length + 18446744073709551616 - shift_coordinates rp)
      % 18446744073709551616))
    ((i + shift_coordinates rp) % 4294967296)
    (Run.read (.sources i) rp.sources i)

/-- Lines 100-120: `phantom_node_target_vector` after the target loop. The vector is
created with `max_locations` empty entries; iteration `i` fills entry `i` and no other. -/
def phantom_node_target_vector (p : DistanceTablePlugin) (rp : RouteParameters) :
    Run PhantomNodeArray :=
  Run.collect (target_entry p rp) (List.range (max_locations_target p rp))

/-- Lines 128-148: `phantom_node_source_vector` after the source loop, filled as the
target vector is. -/
def phantom_node_source_vector (p : DistanceTablePlugin) (rp : RouteParameters) :
    Run PhantomNodeArray :=
  Run.collect (source_entry p rp) (List.range (max_locations_source p rp))

/-! ## Validation (lines 73-91) -/

/-- Line 74: a coordinate list together with destinations or sources. -/
def ambiguous (rp : RouteParameters) : Bool :=
  (useSameTgtSrc rp && rp.destinations.length != 0) ||
    (useSameTgtSrc rp && rp.sources.length != 0)

/-- Lines 79-80: the condition of the coordinate check. -/
def coordinates_rejected (p : DistanceTablePlugin) (rp : RouteParameters) : Bool :=
  (useSameTgtSrc rp && !p.check_all_coordinates rp.coordinates none) ||
    (!useSameTgtSrc rp && !p.check_all_coordinates rp.destinations (some 2) &&
      !p.check_all_coordinates rp.sources (some 1))

/-- Line 86: `nb_coordinates`, an `unsigned` initialised from a `std::size_t`. -/
def nb_coordinates (rp : RouteParameters) : Nat :=
  size_to_unsigned
    (if useSameTgtSrc rp then rp.coordinates.length
     else (rp.destinations.length + rp.sources.length) % 18446744073709551616)

/-- Line 87: the condition of the bearing-count check. -/
def bearings_rejected (rp : RouteParameters) : Bool :=
  decide (rp.bearings.length > 0) && nb_coordinates rp != rp.bearings.length

/-- Line 89: the status message of a bearing-count mismatch. -/
def bearings_status : String :=
  "Number of bearings does not match number of coordinates ."

/-! ## Matrix assembly (lines 155-196) -/

/-- Lines 165-168: `json_row` of row `row`, the range
`[begin + row * number_of_targets, begin + (row + 1) * number_of_targets)` of the
table. Neither product wraps, both factors being below `2^32`. -/
def json_row (result_table : List EdgeWeight) (number_of_targets row : Nat) :
    Run (List EdgeWeight) :=
  if (row + 1) * number_of_targets ≤ result_table.length then
    pure ((result_table.drop (row * number_of_targets)).take number_of_targets)
  else
    Run.fail .out_of_range

/-- Line 162: `number_of_sources`. -/
def number_of_sources (targets sources : PhantomNodeArray) : Nat :=
  if sources.length != 0 then sources.length else targets.length

/-- Lines 160-170: `matrix_json_array`. -/
def matrix_json_array (targets sources : PhantomNodeArray)
    (result_table : List EdgeWeight) : Run (List (List EdgeWeight)) :=
  Run.collect (json_row result_table targets.length)
    (List.range (number_of_sources targets sources))

/-- Lines 176-179 and 186-189: `json_coord`, from `phantom_node_vector[0].location`. -/
def json_coord (phantom_node_vector : List PhantomNode) : Run FixedPointCoordinate :=
  match phantom_node_vector with
  | [] => Run.fail .out_of_range
  | node :: _ => pure node.location

/-- Lines 173-181 and 183-191: the coordinate array of a group. -/
def coord_json_array (group : PhantomNodeArray) : Run (List FixedPointCoordinate) :=
  Run.collect json_coord group

/-- Lines 155-196: what `HandleRequest` does with the engine's answer. -/
def respond (rp : RouteParameters) (json_result : json.Object)
    (targets sources : PhantomNodeArray) (result_table : Option (List EdgeWeight)) :
    Run (Int × json.Object) :=
  match result_table with
  | none => pure (400, json_result)
  | some result_table => do
    let matrix ← matrix_json_array targets sources result_table
    let json_result := json_result.set "distance_table" (.matrix matrix)
    if rp.mapped_points then do
      let target_coord_json_array ← coord_json_array targets
      let json_result :=
        json_result.set "target_mapped_coordinates" (.coordinates target_coord_json_array)
      let source_coord_json_array ← coord_json_array sources
      if source_coord_json_array.length != 0 then
        pure (200,
          json_result.set "source_mapped_coordinates" (.coordinates source_coord_json_array))
      else
        pure (200, json_result)
    else
      pure (200, json_result)

/-! ## The request handler (lines 70-197) -/

/-- The method `HandleRequest`: the run on `route_parameters` with `json_result` as it is
before the call; its value is the return code and `json_result` after the call. -/
def HandleRequest (p : DistanceTablePlugin) (rp : RouteParameters)
    (json_result : json.Object) : Run (Int × json.Object) :=
  if ambiguous rp then
    pure (400, json_result)
  else if coordinates_rejected p rp then
    pure (400, json_result)
  else if bearings_rejected rp then
    pure (400, json_result.set "status" (.string bearings_status))
  else do
    let targets ← phantom_node_target_vector p rp
    let sources ← phantom_node_source_vector p rp
    let result_table ←
      Run.call (.distance_table targets sources) (p.distance_table targets sources)
    respond rp json_result targets sources result_table

/-! ## Conditions on requests and collaborators -/

/-- The request's vectors have sizes the machine types hold: the counts of locations fit
`unsigned`, the counts of hints and bearings fit `std::size_t`. -/
def representable (rp : RouteParameters) : Prop :=
  rp.coordinates.length < 4294967296 ∧
    rp.destinations.length + rp.sources.length < 4294967296 ∧
    rp.hints.length < 18446744073709551616 ∧
    rp.bearings.length < 18446744073709551616

instance (rp : RouteParameters) : Decidable (representable rp) := by
  unfold representable; infer_instance

/-- The request passes the three checks of lines 73-91. -/
def passes_validation (p : DistanceTablePlugin) (rp : RouteParameters) : Prop :=
  ambiguous rp = false ∧ coordinates_rejected p rp = false ∧ bearings_rejected rp = false

instance (p : DistanceTablePlugin) (rp : RouteParameters) :
    Decidable (passes_validation p rp) := by
  unfold passes_validation; infer_instance

/-- What the two `BOOST_ASSERT`s state of the facade: for every location and bearing
window the search leaves a first anchor that is valid against the node count. -/
def search_finds_valid (p : DistanceTablePlugin) : Prop :=
  ∀ c bearing range, ∃ node rest,
    p.facade.IncrementalFindPhantomNodeForCoordinate c 1 bearing range = node :: rest ∧
      p.is_valid node p.facade.GetNumberOfNodes = true

/-- The source loop reads no hint past the end: the checksum differs, or there are at
least `shift_coordinates` hints. -/
def source_hints_in_range (p : DistanceTablePlugin) (rp : RouteParameters) : Prop :=
  checksum_OK p rp = false ∨ shift_coordinates rp ≤ rp.hints.length

instance (p : DistanceTablePlugin) (rp : RouteParameters) :
    Decidable (source_hints_in_range p rp) := by
  unfold source_hints_in_range; infer_instance

/-- The spec's `total_points`: the coordinate-list size in Symmetric mode,
`destinations.size + sources.size` in Asymmetric mode. -/
def total_points (rp : RouteParameters) : Nat :=
  if rp.coordinates ≠ [] then rp.coordinates.length
  else rp.destinations.length + rp.sources.length

/-! ## Sample collaborators and requests -/

/-- Modelled from the spec: `check_all_coordinates` is declared in `plugin_base.hpp`,
which lies outside this file. A list passes when it has at least `min` coordinates
(where the call names no minimum, the 2 that line 80 names for destinations) and each
lies in the valid geographic range. -/
def check_all_coordinates (coordinates : List FixedPointCoordinate) (min : Option Nat) :
    Bool :=
  decide (min.getD 2 ≤ coordinates.length) &&
    coordinates.all fun c =>
      decide (-90000000 ≤ c.lat) && decide (c.lat ≤ 90000000) &&
        decide (-180000000 ≤ c.lon) && decide (c.lon ≤ 180000000)

/-- A sample anchor: the coordinate itself, on segment `(1, 2)`. -/
def snap (c : FixedPointCoordinate) : PhantomNode := ⟨1, 2, c⟩

/-- A sample facade with checksum 7 and 100 nodes whose search snaps every coordinate
onto itself. -/
def sample_facade : DataFacadeT where
  GetCheckSum := 7
  GetNumberOfNodes := 100
  IncrementalFindPhantomNodeForCoordinate := fun c _ _ _ => [snap c]

/-- A sample plugin with cap `cap` whose engine answers `table`. A hint decodes to an
anchor whose segment ids are the hint's length; an anchor is valid when its forward id
is below the node count. -/
def sample_plugin (cap : Int) (table : Option (List EdgeWeight)) : DistanceTablePlugin where
  facade := sample_facade
  max_locations_distance_table := cap
  distance_table := fun _ _ => table
  check_all_coordinates := check_all_coordinates
  DecodeFromBase64 := fun hint => ⟨hint.length, hint.length, ⟨0, 0⟩⟩
  is_valid := fun node number_of_nodes => decide (node.forward_node_id < number_of_nodes)
  NDEBUG := false

/-- Sample coordinate `(1.0, 1.0)`. -/
def c1 : FixedPointCoordinate := ⟨1000000, 1000000⟩

/-- Sample coordinate `(2.0, 2.0)`. -/
def c2 : FixedPointCoordinate := ⟨2000000, 2000000⟩

/-- Sample coordinate `(3.0, 3.0)`. -/
def c3 : FixedPointCoordinate := ⟨3000000, 3000000⟩

/-- A Symmetric request with two coordinates, no hints and no bearings. -/
def symmetric_request : RouteParameters where
  check_sum := 0
  mapped_points := false
  hints := []
  bearings := []
  coordinates := [c1, c2]
  destinations := []
  sources := []

/-- An Asymmetric request with one source and two destinations. -/
def asymmetric_request : RouteParameters where
  check_sum := 0
  mapped_points := false
  hints := []
  bearings := []
  coordinates := []
  destinations := [c1, c2]
  sources := [c3]

/-- An Asymmetric request with two sources and two destinations. -/
def asymmetric_request_2x2 : RouteParameters where
  check_sum := 0
  mapped_points := false
  hints := []
  bearings := []
  coordinates := []
  destinations := [c1, c2]
  sources := [c3, c1]

/-- A request with both a coordinate list and a sources list. -/
def ambiguous_request : RouteParameters where
  check_sum := 0
  mapped_points := false
  hints := []
  bearings := []
  coordinates := [c1, c2]
  destinations := []
  sources := [c3]

/-- A request with both a coordinate list and a sources list, and with three bearings for
its two coordinates. -/
def ambiguous_request_with_bearings : RouteParameters where
  check_sum := 0
  mapped_points := false
  hints := []
  bearings := [(0, none), (90, none), (180, none)]
  coordinates := [c1, c2]
  destinations := []
  sources := [c3]

/-- A Symmetric request with three bearings for its two coordinates. -/
def symmetric_request_with_three_bearings : RouteParameters where
  check_sum := 0
  mapped_points := false
  hints := []
  bearings := [(0, none), (90, none), (180, none)]
  coordinates := [c1, c2]
  destinations := []
  sources := []

/-- An Asymmetric request whose first destination, at latitude 200 degrees, is out of
the valid geographic range, and whose one source is in range. -/
def request_with_invalid_destination : RouteParameters where
  check_sum := 0
  mapped_points := false
  hints := []
  bearings := []
  coordinates := []
  destinations := [⟨200000000, 0⟩, c2]
  sources := [c3]

/-- Sample coordinate `(4.0, 4.0)`. -/
def c4 : FixedPointCoordinate := ⟨4000000, 4000000⟩

/-- Sample coordinate `(5.0, 5.0)`. -/
def c5 : FixedPointCoordinate := ⟨5000000, 5000000⟩

/-- A Symmetric request with five coordinates. -/
def symmetric_request_of_five : RouteParameters where
  check_sum := 0
  mapped_points := false
  hints := []
  bearings := []
  coordinates := [c1, c2, c3, c4, c5]
  destinations := []
  sources := []

/-- An Asymmetric request with the graph's checksum, two destinations and one source,
and three hints: one for the second destination, one for the source. -/
def hinted_request : RouteParameters where
  check_sum := 7
  mapped_points := false
  hints := ["", "abc", "de"]
  bearings := []
  coordinates := []
  destinations := [c1, c2]
  sources := [c3]

/-! ## Counting events -/

/-- Whether an event is a nearest-edge search. -/
def Event.is_search : Event → Bool
  | .IncrementalFindPhantomNodeForCoordinate _ _ _ _ => true
  | _ => false

/-- Whether an event is a call of the distance engine. -/
def Event.is_engine_call : Event → Bool
  | .distance_table _ _ => true
  | _ => false

/-- The number of nearest-edge searches in a trace. -/
def searches (trace : List Event) : Nat := trace.countP Event.is_search

/-- The number of calls of the distance engine in a trace. -/
def engine_calls (trace : List Event) : Nat := trace.countP Event.is_engine_call

/-! ## The bearing window -/

/-- The bearing window the spec gives the entry of logical index `k`: bearing 0 and range
180 when the request has no bearing list; bearing `k` and its range when that is
explicit; bearing `k` and range 10 when it is not. -/
def bearing_window (rp : RouteParameters) (k : Nat) (bearing range : Int) : Prop :=
  (rp.bearings = [] → bearing = 0 ∧ range = 180) ∧
    (∀ b r, rp.bearings[k]? = some (b, some r) → bearing = b ∧ range = r) ∧
    (∀ b, rp.bearings[k]? = some (b, none) → bearing = b ∧ range = 10)

/-! ## Further sample requests -/

/-- An Asymmetric request with two destinations, one source and a bearing for each:
one without a range, two with a range. -/
def request_with_bearings : RouteParameters where
  check_sum := 0
  mapped_points := false
  hints := []
  bearings := [(10, none), (20, some 5), (30, some 7)]
  coordinates := []
  destinations := [c1, c2]
  sources := [c3]

/-! ## Further sample collaborators and requests -/

/-- A hint of 100 characters: the sample codec decodes it to an anchor on segment 100,
which is not valid against the sample graph's 100 nodes. -/
def stale_hint : String := String.mk (List.replicate 100 'x')

/-- An Asymmetric request with the graph's checksum, two destinations, one source and a
stale hint for each destination. -/
def request_with_two_stale_hints : RouteParameters where
  check_sum := 7
  mapped_points := false
  hints := [stale_hint, stale_hint]
  bearings := []
  coordinates := []
  destinations := [c1, c2]
  sources := [c3]

/-- The same request with the stale hint of the second destination left out. -/
def request_with_one_stale_hint : RouteParameters :=
  { request_with_two_stale_hints with hints := [stale_hint] }

/-- An Asymmetric request with the graph's checksum, two destinations and one source,
and no hints. -/
def request_with_checksum_without_hints : RouteParameters where
  check_sum := 7
  mapped_points := false
  hints := []
  bearings := []
  coordinates := []
  destinations := [c1, c2]
  sources := [c3]

/-- A facade with checksum 7 and 100 nodes whose search leaves `found` at every
location. -/
def facade_finding (found : List PhantomNode) : DataFacadeT where
  GetCheckSum := 7
  GetNumberOfNodes := 100
  IncrementalFindPhantomNodeForCoordinate := fun _ _ _ _ => found

/-- The sample plugin over `facade_finding found`, with `BOOST_ASSERT` compiled out or
not. -/
def plugin_finding (found : List PhantomNode) (NDEBUG : Bool) (cap : Int)
    (table : Option (List EdgeWeight)) : DistanceTablePlugin :=
  { sample_plugin cap table with facade := facade_finding found, NDEBUG := NDEBUG }

/-- An anchor on segment 100, not valid against 100 nodes. -/
def invalid_anchor : PhantomNode := ⟨100, 100, ⟨0, 0⟩⟩

/-- The Symmetric request of two coordinates, with coordinate echoing. -/
def symmetric_request_mapped : RouteParameters :=
  { symmetric_request with mapped_points := true }

/-- The Asymmetric request of one source and two destinations, with coordinate
echoing. -/
def asymmetric_request_mapped : RouteParameters :=
  { asymmetric_request with mapped_points := true }

/-! ## The accepted requests -/

/-- The conditions on the request under which, by the spec, the handler goes on to the
engine: the coordinate list is not combined with destinations or sources, the coordinate
check of lines 79-80 does not reject, and there are no bearings or exactly `total_points`
bearings. -/
def accepted (p : DistanceTablePlugin) (rp : RouteParameters) : Prop :=
  ¬ (rp.coordinates ≠ [] ∧ (rp.destinations ≠ [] ∨ rp.sources ≠ [])) ∧
    coordinates_rejected p rp = false ∧
    (rp.bearings = [] ∨ rp.bearings.length = total_points rp)

instance (p : DistanceTablePlugin) (rp : RouteParameters) : Decidable (accepted p rp) := by
  unfold accepted; infer_instance

/-! ## Runs: basic facts -/

theorem Run.pure_def {α : Type} (a : α) : (Pure.pure a : Run α) = Run.pure a := rfl

theorem Run.bind_def {α β : Type} (r : Run α) (k : α → Run β) :
    (r >>= k) = Run.bind r k := rfl

theorem Run.result_bind_ok {α β : Type} {r : Run α} {a : α} (k : α → Run β)
    (h : r.result = .ok a) : (Run.bind r k).result = (k a).result := by
  simp [Run.bind, h]

theorem Run.trace_bind_ok {α β : Type} {r : Run α} {a : α} (k : α → Run β)
    (h : r.result = .ok a) : (Run.bind r k).trace = r.trace ++ (k a).trace := by
  simp [Run.bind, h]

theorem Run.result_bind_fault {α β : Type} {r : Run α} {f : Fault} (k : α → Run β)
    (h : r.result = .fault f) : (Run.bind r k).result = .fault f := by
  simp [Run.bind, h]

/-- A sequence returns `b` exactly when its first part returns some `a` on which the
second part returns `b`. -/
theorem Run.result_bind_eq_ok {α β : Type} (r : Run α) (k : α → Run β) (b : β) :
    (Run.bind r k).result = .ok b ↔ ∃ a, r.result = .ok a ∧ (k a).result = .ok b := by
  cases h : r.result with
  | ok a => simp [Run.bind, h]
  | fault f => simp [Run.bind, h]

/-- A loop returns `ys` exactly when each iteration returns the entry of `ys` at its
position. -/
theorem Run.collect_result_eq_ok {α β : Type} (body : α → Run β) (xs : List α)
    (ys : List β) :
    (Run.collect body xs).result = .ok ys ↔
      List.Forall₂ (fun x y => (body x).result = .ok y) xs ys := by
  induction xs generalizing ys with
  | nil =>
    cases ys with
    | nil => simp [Run.collect, Run.pure]
    | cons y ys => simp [Run.collect, Run.pure]
  | cons x xs ih =>
    cases ys with
    | nil =>
      simp only [Run.collect, Run.result_bind_eq_ok, Run.pure]
      simp
    | cons y ys =>
      simp only [Run.collect, Run.result_bind_eq_ok, Run.pure, List.forall₂_cons]
      constructor
      · rintro ⟨a, ha, as, has, h⟩
        simp only [Outcome.ok.injEq, List.cons.injEq] at h
        obtain ⟨rfl, rfl⟩ := h
        exact ⟨ha, (ih as).1 has⟩
      · rintro ⟨ha, has⟩
        exact ⟨y, ha, ys, (ih ys).2 has, rfl⟩

/-- A loop whose iterations all return, returns. -/
theorem Run.collect_returns {α β : Type} (body : α → Run β) (xs : List α)
    (h : ∀ x ∈ xs, ∃ y, (body x).result = .ok y) :
    ∃ ys, (Run.collect body xs).result = .ok ys := by
  induction xs with
  | nil => exact ⟨[], rfl⟩
  | cons x xs ih =>
    obtain ⟨y, hy⟩ := h x (List.mem_cons_self x xs)
    obtain ⟨ys, hys⟩ := ih fun z hz => h z (List.mem_cons_of_mem x hz)
    exact ⟨y :: ys, (Run.collect_result_eq_ok body (x :: xs) (y :: ys)).2
      (List.Forall₂.cons hy ((Run.collect_result_eq_ok body xs ys).1 hys))⟩

/-- A loop that returns leaves one entry per iteration. -/
theorem Run.collect_length {α β : Type} {body : α → Run β} {xs : List α} {ys : List β}
    (h : (Run.collect body xs).result = .ok ys) : ys.length = xs.length :=
  ((Run.collect_result_eq_ok body xs ys).1 h).length_eq.symm

/-- Entry `i` of a loop over `0, ..., n - 1` that returns is what iteration `i` returns. -/
theorem Run.collect_range_get {β : Type} {body : Nat → Run β} {n : Nat} {ys : List β}
    (h : (Run.collect body (List.range n)).result = .ok ys) (i : Nat) (hi : i < n) :
    ∃ y, ys[i]? = some y ∧ (body i).result = .ok y := by
  have hf := (Run.collect_result_eq_ok body (List.range n) ys).1 h
  have hlen : ys.length = n := by simpa using hf.length_eq.symm
  have hi2 : i < ys.length := by omega
  refine ⟨ys[i], List.getElem?_eq_getElem hi2, ?_⟩
  have := List.Forall₂.get hf (by simpa using hi) hi2
  simpa using this

/-! ## Resolution returns -/

theorem Run.read_result {α : Type} (e : Event) (v : List α) (k : Nat) (h : k < v.length) :
    (Run.read e v k).result = .ok v[k] := by
  simp [Run.read, List.getElem?_eq_getElem h]

theorem bearing_at_returns (rp : RouteParameters) (k : Nat)
    (h : 0 < rp.bearings.length → k < rp.bearings.length) :
    ∃ b, (bearing_at rp k).result = .ok b := by
  unfold bearing_at
  split
  · rename_i h0
    simp only [Run.bind_def, Run.pure_def]
    rw [Run.result_bind_ok _ (Run.read_result _ _ _ (h h0))]
    exact ⟨_, rfl⟩
  · exact ⟨0, rfl⟩

theorem range_at_returns (rp : RouteParameters) (k : Nat)
    (h : 0 < rp.bearings.length → k < rp.bearings.length) :
    ∃ b, (range_at rp k).result = .ok b := by
  unfold range_at
  split
  · rename_i h0
    simp only [Run.bind_def, Run.pure_def]
    rw [Run.result_bind_ok _ (Run.read_result _ _ _ (h h0))]
    split
    · rw [Run.result_bind_ok _ (Run.read_result _ _ _ (h h0))]
      exact ⟨_, rfl⟩
    · exact ⟨_, rfl⟩
  · exact ⟨180, rfl⟩

theorem find_phantom_node_returns (p : DistanceTablePlugin) (rp : RouteParameters)
    (location : Run FixedPointCoordinate) (k : Nat) (c : FixedPointCoordinate)
    (hsearch : search_finds_valid p)
    (hbear : 0 < rp.bearings.length → k < rp.bearings.length)
    (hloc : location.result = .ok c) :
    ∃ node rest, (find_phantom_node p rp location k).result = .ok (node :: rest) := by
  obtain ⟨b, hb⟩ := bearing_at_returns rp k hbear
  obtain ⟨r, hr⟩ := range_at_returns rp k hbear
  obtain ⟨node, rest, hv, hvalid⟩ := hsearch c b r
  refine ⟨node, rest, ?_⟩
  unfold find_phantom_node
  simp only [Run.bind_def, Run.pure_def]
  rw [Run.result_bind_ok _ hb, Run.result_bind_ok _ hr, Run.result_bind_ok _ hloc]
  simp [Run.bind, Run.call, hv, BOOST_ASSERT_front_is_valid, hvalid, Run.pure, Run.pure_def]

theorem hint_given_returns (rp : RouteParameters) (checksum_OK in_bound : Bool) (k : Nat)
    (h : checksum_OK = true → in_bound = true → k < rp.hints.length) :
    (hint_given rp checksum_OK in_bound k).result =
      .ok (checksum_OK && in_bound && !(rp.hints.getD k "").isEmpty) := by
  unfold hint_given
  split
  · rename_i h0
    simp only [Bool.and_eq_true] at h0
    have hk := h h0.1 h0.2
    simp only [Run.bind_def, Run.pure_def]
    rw [Run.result_bind_ok _ (Run.read_result _ _ _ hk)]
    simp [Run.pure, h0.1, h0.2, List.getD_eq_getElem _ _ hk, List.getElem?_eq_getElem hk]
  · rename_i h0
    simp only [Bool.and_eq_true, not_and, Bool.not_eq_true] at h0
    cases checksum_OK <;> cases in_bound <;> simp_all [Run.pure_def, Run.pure]

theorem decode_hint_result (p : DistanceTablePlugin) (rp : RouteParameters) (k : Nat)
    (hk : k < rp.hints.length) :
    (decode_hint p rp k).result = .ok (p.DecodeFromBase64 (rp.hints.getD k "")) := by
  unfold decode_hint
  simp only [Run.bind_def]
  rw [Run.result_bind_ok _ (Run.read_result _ _ _ hk)]
  simp [Run.call, List.getD_eq_getElem _ _ hk, List.getElem?_eq_getElem hk]

theorem resolve_returns (p : DistanceTablePlugin) (rp : RouteParameters)
    (checksum_OK in_bound : Bool) (k : Nat) (location : Run FixedPointCoordinate)
    (c : FixedPointCoordinate)
    (hsearch : search_finds_valid p)
    (hhint : checksum_OK = true → in_bound = true → k < rp.hints.length)
    (hbear : 0 < rp.bearings.length → k < rp.bearings.length)
    (hloc : location.result = .ok c) :
    ∃ node rest,
      (resolve p rp checksum_OK in_bound k location).result = .ok (node :: rest) := by
  unfold resolve
  simp only [Run.bind_def, Run.pure_def]
  rw [Run.result_bind_ok _ (hint_given_returns rp checksum_OK in_bound k hhint)]
  split
  · rename_i hg
    simp only [Bool.and_eq_true] at hg
    have hk := hhint hg.1.1 hg.1.2
    rw [Run.result_bind_ok _ (decode_hint_result p rp k hk)]
    split
    · exact ⟨_, [], rfl⟩
    · exact find_phantom_node_returns p rp location k c hsearch hbear hloc
  · exact find_phantom_node_returns p rp location k c hsearch hbear hloc

/-- A request that passed the bearing check has no bearings or one per location. -/
theorem bearings_length_of_accepted (rp : RouteParameters) (hfit : representable rp)
    (h : bearings_rejected rp = false) (h0 : 0 < rp.bearings.length) :
    rp.bearings.length =
      if useSameTgtSrc rp then rp.coordinates.length
      else rp.destinations.length + rp.sources.length := by
  obtain ⟨h1, h2, -, -⟩ := hfit
  unfold bearings_rejected nb_coordinates size_to_unsigned at h
  simp only [gt_iff_lt, h0, decide_True, Bool.true_and, bne_eq_false_iff_eq] at h
  rw [← h]
  split <;> omega

theorem max_locations_target_le (p : DistanceTablePlugin) (rp : RouteParameters) :
    max_locations_target p rp ≤
      if useSameTgtSrc rp then rp.coordinates.length else rp.destinations.length := by
  unfold max_locations_target size_to_unsigned
  split
  · exact le_trans (Nat.min_le_right _ _) (Nat.mod_le _ _)
  · exact le_trans (Nat.min_le_right _ _) (Nat.mod_le _ _)

theorem max_locations_source_le (p : DistanceTablePlugin) (rp : RouteParameters) :
    max_locations_source p rp ≤ if useSameTgtSrc rp then 0 else rp.sources.length := by
  unfold max_locations_source size_to_unsigned
  cases useSameTgtSrc rp
  · exact le_trans (Nat.min_le_right _ _) (Nat.mod_le _ _)
  · simp

/-- Every iteration of the target loop returns a non-empty entry. -/
theorem target_entry_returns (p : DistanceTablePlugin) (rp : RouteParameters) (i : Nat)
    (hfit : representable rp) (hbear : bearings_rejected rp = false)
    (hsearch : search_finds_valid p) (hi : i < max_locations_target p rp) :
    ∃ node rest, (target_entry p rp i).result = .ok (node :: rest) := by
  have hle := max_locations_target_le p rp
  have hb := bearings_length_of_accepted rp hfit hbear
  unfold target_entry
  cases hs : useSameTgtSrc rp
  · simp only [hs, Bool.false_eq_true, if_false] at hle hb ⊢
    exact resolve_returns p rp _ _ i _ _ hsearch
      (fun _ h => of_decide_eq_true h) (fun h0 => by have := hb h0; omega)
      (Run.read_result _ _ _ (by omega))
  · simp only [hs, if_true] at hle hb ⊢
    exact resolve_returns p rp _ _ i _ _ hsearch
      (fun _ h => of_decide_eq_true h) (fun h0 => by have := hb h0; omega)
      (Run.read_result _ _ _ (by omega))

/-- Every iteration of the source loop returns a non-empty entry, when it reads no hint
past the end. -/
theorem source_entry_returns (p : DistanceTablePlugin) (rp : RouteParameters) (i : Nat)
    (hfit : representable rp) (hbear : bearings_rejected rp = false)
    (hsearch : search_finds_valid p) (hhints : source_hints_in_range p rp)
    (hi : i < max_locations_source p rp) :
    ∃ node rest, (source_entry p rp i).result = .ok (node :: rest) := by
  have hle := max_locations_source_le p rp
  have hb := bearings_length_of_accepted rp hfit hbear
  obtain ⟨-, h2, h3, -⟩ := hfit
  cases hs : useSameTgtSrc rp
  · simp only [hs, Bool.false_eq_true, if_false] at hle hb
    have hshift : shift_coordinates rp = rp.destinations.length := by
      unfold shift_coordinates size_to_unsigned
      simp only [hs, Bool.false_eq_true, if_false]
      omega
    unfold source_entry
    rw [hshift]
    refine resolve_returns p rp _ _ _ _ _ hsearch ?_ ?_ (Run.read_result _ _ _ (by omega))
    · intro hc hin
      have hin := of_decide_eq_true hin
      rcases hhints with hh | hh
      · rw [hh] at hc; cases hc
      · rw [hshift] at hh
        omega
    · intro h0
      have := hb h0
      omega
  · simp only [hs, if_true] at hle
    omega

/-- A loop whose iterations all return a value with property `P`, returns a list of such
values. -/
theorem Run.collect_returns_all {α β : Type} (body : α → Run β) (P : β → Prop)
    (xs : List α) (h : ∀ x ∈ xs, ∃ y, (body x).result = .ok y ∧ P y) :
    ∃ ys, (Run.collect body xs).result = .ok ys ∧ ys.length = xs.length ∧
      ∀ y ∈ ys, P y := by
  induction xs with
  | nil => exact ⟨[], rfl, rfl, by simp⟩
  | cons x xs ih =>
    obtain ⟨y, hy, hp⟩ := h x (List.mem_cons_self x xs)
    obtain ⟨ys, hys, hlen, hall⟩ := ih fun z hz => h z (List.mem_cons_of_mem x hz)
    refine ⟨y :: ys, ?_, by simp [hlen], ?_⟩
    · exact (Run.collect_result_eq_ok body (x :: xs) (y :: ys)).2
        (List.Forall₂.cons hy ((Run.collect_result_eq_ok body xs ys).1 hys))
    · intro z hz
      rcases List.mem_cons.1 hz with rfl | hz
      · exact hp
      · exact hall z hz

/-- The target loop returns `max_locations` non-empty entries. -/
theorem phantom_node_target_vector_returns (p : DistanceTablePlugin)
    (rp : RouteParameters) (hfit : representable rp)
    (hbear : bearings_rejected rp = false) (hsearch : search_finds_valid p) :
    ∃ targets, (phantom_node_target_vector p rp).result = .ok targets ∧
      targets.length = max_locations_target p rp ∧ ∀ v ∈ targets, v ≠ [] := by
  have := Run.collect_returns_all (target_entry p rp) (fun v => v ≠ [])
    (List.range (max_locations_target p rp)) (fun i hi => by
      obtain ⟨node, rest, h⟩ :=
        target_entry_returns p rp i hfit hbear hsearch (List.mem_range.1 hi)
      exact ⟨_, h, by simp⟩)
  simpa [phantom_node_target_vector] using this

/-- The source loop returns `max_locations` non-empty entries, when it reads no hint past
the end. -/
theorem phantom_node_source_vector_returns (p : DistanceTablePlugin)
    (rp : RouteParameters) (hfit : representable rp)
    (hbear : bearings_rejected rp = false) (hsearch : search_finds_valid p)
    (hhints : source_hints_in_range p rp) :
    ∃ sources, (phantom_node_source_vector p rp).result = .ok sources ∧
      sources.length = max_locations_source p rp ∧ ∀ v ∈ sources, v ≠ [] := by
  have := Run.collect_returns_all (source_entry p rp) (fun v => v ≠ [])
    (List.range (max_locations_source p rp)) (fun i hi => by
      obtain ⟨node, rest, h⟩ :=
        source_entry_returns p rp i hfit hbear hsearch hhints (List.mem_range.1 hi)
      exact ⟨_, h, by simp⟩)
  simpa [phantom_node_source_vector] using this

/-! ## The result object -/

theorem json.Object.get_set_self (o : json.Object) (key : String) (value : json.Value) :
    (o.set key value).get key = some value := by
  simp [json.Object.set, json.Object.get, List.lookup]

theorem json.Object.lookup_filter_ne (o : json.Object) (key other : String)
    (h : other ≠ key) :
    List.lookup other (o.filter fun entry => entry.1 != key) = List.lookup other o := by
  induction o with
  | nil => rfl
  | cons e o ih =>
    obtain ⟨k, v⟩ := e
    by_cases hk : k = key
    · subst hk
      have hne : (other == k) = false := by simpa using h
      simp [List.filter, List.lookup, hne, ih]
    · have hk2 : (k != key) = true := by simpa using hk
      simp only [List.filter, hk2, List.lookup]
      rw [ih]

theorem json.Object.get_set_other (o : json.Object) (key other : String)
    (value : json.Value) (h : other ≠ key) :
    (o.set key value).get other = o.get other := by
  have hne : (other == key) = false := by simpa using h
  simp only [json.Object.set, json.Object.get, List.lookup, hne]
  exact json.Object.lookup_filter_ne o key other h

/-! ## Matrix assembly -/

/-- A row is returned exactly when its range lies within the table, and is that range. -/
theorem json_row_result_eq_ok (result_table : List EdgeWeight)
    (number_of_targets row : Nat) (values : List EdgeWeight) :
    (json_row result_table number_of_targets row).result = .ok values ↔
      (row + 1) * number_of_targets ≤ result_table.length ∧
        values = (result_table.drop (row * number_of_targets)).take number_of_targets := by
  unfold json_row
  split
  · rename_i h
    simp [Run.pure_def, Run.pure, h, eq_comm]
  · rename_i h
    simp [Run.fail, h]

/-- The rows, when the matrix is returned: one per source, each the range of the table
at its position. -/
theorem matrix_json_array_rows (targets sources : PhantomNodeArray)
    (result_table : List EdgeWeight) (rows : List (List EdgeWeight))
    (h : (matrix_json_array targets sources result_table).result = .ok rows) :
    rows = (List.range (number_of_sources targets sources)).map fun row =>
      (result_table.drop (row * targets.length)).take targets.length := by
  unfold matrix_json_array at h
  have hlen : rows.length = number_of_sources targets sources := by
    simpa using Run.collect_length h
  apply List.ext_getElem?
  intro i
  by_cases hi : i < number_of_sources targets sources
  · obtain ⟨y, hy, hrow⟩ := Run.collect_range_get h i hi
    rw [hy]
    rw [(json_row_result_eq_ok _ _ _ _).1 hrow |>.2]
    simp [List.getElem?_map, List.getElem?_range hi]
  · rw [List.getElem?_eq_none (by omega), List.getElem?_eq_none (by simp; omega)]

/-- The matrix is returned when the table holds a cost for every pair. -/
theorem matrix_json_array_returns (targets sources : PhantomNodeArray)
    (result_table : List EdgeWeight)
    (h : number_of_sources targets sources * targets.length ≤ result_table.length) :
    ∃ rows, (matrix_json_array targets sources result_table).result = .ok rows := by
  unfold matrix_json_array
  apply Run.collect_returns
  intro row hrow
  have hrow := List.mem_range.1 hrow
  refine ⟨_, (json_row_result_eq_ok _ _ _ _).2 ⟨?_, rfl⟩⟩
  calc (row + 1) * targets.length
      ≤ number_of_sources targets sources * targets.length :=
        Nat.mul_le_mul_right _ hrow
    _ ≤ result_table.length := h

/-- When the matrix is returned, every row's range lies within the table. -/
theorem matrix_json_array_in_range (targets sources : PhantomNodeArray)
    (result_table : List EdgeWeight) (rows : List (List EdgeWeight))
    (h : (matrix_json_array targets sources result_table).result = .ok rows)
    (row : Nat) (hrow : row < number_of_sources targets sources) :
    (row + 1) * targets.length ≤ result_table.length := by
  unfold matrix_json_array at h
  obtain ⟨y, -, hy⟩ := Run.collect_range_get h row hrow
  exact ((json_row_result_eq_ok _ _ _ _).1 hy).1

/-- The coordinate array of a group without empty entries is returned. -/
theorem coord_json_array_returns (group : PhantomNodeArray) (h : ∀ v ∈ group, v ≠ []) :
    ∃ points, (coord_json_array group).result = .ok points := by
  unfold coord_json_array
  apply Run.collect_returns
  intro v hv
  cases v with
  | nil => exact absurd rfl (h [] hv)
  | cons node rest => exact ⟨node.location, rfl⟩

/-! ## The response -/

/-- What a returned response is: 400 with the result untouched when the engine gave no
table, else 200 with the matrix under `distance_table`. -/
theorem respond_result_eq_ok (rp : RouteParameters) (json_result : json.Object)
    (targets sources : PhantomNodeArray) (result_table : Option (List EdgeWeight))
    (code : Int) (json_after : json.Object)
    (h : (respond rp json_result targets sources result_table).result =
      .ok (code, json_after)) :
    (result_table = none ∧ code = 400 ∧ json_after = json_result) ∨
      ∃ table rows, result_table = some table ∧ code = 200 ∧
        (matrix_json_array targets sources table).result = .ok rows ∧
        json_after.get "distance_table" = some (.matrix rows) := by
  cases result_table with
  | none =>
    left
    simp only [respond, Run.pure_def, Run.pure, Outcome.ok.injEq, Prod.mk.injEq] at h
    exact ⟨rfl, h.1.symm, h.2.symm⟩
  | some table =>
    right
    simp only [respond, Run.bind_def, Run.pure_def] at h
    obtain ⟨rows, hrows, h⟩ := (Run.result_bind_eq_ok _ _ _).1 h
    refine ⟨table, rows, rfl, ?_, hrows, ?_⟩
    · split at h
      · obtain ⟨tc, -, h⟩ := (Run.result_bind_eq_ok _ _ _).1 h
        obtain ⟨sc, -, h⟩ := (Run.result_bind_eq_ok _ _ _).1 h
        split at h <;>
          · simp only [Run.pure, Outcome.ok.injEq, Prod.mk.injEq] at h
            exact h.1.symm
      · simp only [Run.pure, Outcome.ok.injEq, Prod.mk.injEq] at h
        exact h.1.symm
    · split at h
      · obtain ⟨tc, -, h⟩ := (Run.result_bind_eq_ok _ _ _).1 h
        obtain ⟨sc, -, h⟩ := (Run.result_bind_eq_ok _ _ _).1 h
        split at h <;>
          · simp only [Run.pure, Outcome.ok.injEq, Prod.mk.injEq] at h
            rw [← h.2]
            simp [json.Object.get_set_other, json.Object.get_set_self]
      · simp only [Run.pure, Outcome.ok.injEq, Prod.mk.injEq] at h
        rw [← h.2]
        exact json.Object.get_set_self _ _ _

/-- The response to a table with a cost for every pair is 200 with the matrix, when the
groups have no empty entry. -/
theorem respond_returns_200 (rp : RouteParameters) (json_result : json.Object)
    (targets sources : PhantomNodeArray) (table : List EdgeWeight)
    (hlen : number_of_sources targets sources * targets.length ≤ table.length)
    (ht : ∀ v ∈ targets, v ≠ []) (hs : ∀ v ∈ sources, v ≠ []) :
    ∃ json_after rows,
      (respond rp json_result targets sources (some table)).result =
        .ok (200, json_after) ∧
      (matrix_json_array targets sources table).result = .ok rows ∧
      json_after.get "distance_table" = some (.matrix rows) := by
  obtain ⟨rows, hrows⟩ := matrix_json_array_returns targets sources table hlen
  obtain ⟨tc, htc⟩ := coord_json_array_returns targets ht
  obtain ⟨sc, hsc⟩ := coord_json_array_returns sources hs
  have key : ∃ json_after,
      (respond rp json_result targets sources (some table)).result =
        .ok (200, json_after) := by
    simp only [respond, Run.bind_def, Run.pure_def]
    rw [Run.result_bind_ok _ hrows]
    split
    · rw [Run.result_bind_ok _ htc, Run.result_bind_ok _ hsc]
      split <;> exact ⟨_, rfl⟩
    · exact ⟨_, rfl⟩
  obtain ⟨json_after, hj⟩ := key
  rcases respond_result_eq_ok _ _ _ _ _ _ _ hj with ⟨h, -⟩ | ⟨t, r, ht2, -, hr, hg⟩
  · cases h
  · cases ht2
    rw [hrows] at hr
    cases hr
    exact ⟨json_after, rows, hj, hrows, hg⟩

/-! ## The request handler -/

/-- A request that passes validation is resolved, handed to the engine and answered. -/
theorem HandleRequest_of_passes (p : DistanceTablePlugin) (rp : RouteParameters)
    (json_result : json.Object) (h : passes_validation p rp) :
    HandleRequest p rp json_result =
      Run.bind (phantom_node_target_vector p rp) fun targets =>
      Run.bind (phantom_node_source_vector p rp) fun sources =>
      Run.bind (Run.call (.distance_table targets sources)
        (p.distance_table targets sources)) fun result_table =>
      respond rp json_result targets sources result_table := by
  obtain ⟨h1, h2, h3⟩ := h
  simp [HandleRequest, h1, h2, h3, Run.bind_def]

/-- A request that fails validation is answered 400. -/
theorem HandleRequest_of_rejected (p : DistanceTablePlugin) (rp : RouteParameters)
    (json_result : json.Object) (h : ¬ passes_validation p rp) :
    ∃ json_after, HandleRequest p rp json_result = ⟨[], .ok (400, json_after)⟩ := by
  unfold passes_validation at h
  unfold HandleRequest
  split
  · exact ⟨_, rfl⟩
  · split
    · exact ⟨_, rfl⟩
    · split
      · exact ⟨_, rfl⟩
      · simp_all

/-- What a returned run of the handler went through, when validation passed. -/
theorem HandleRequest_result_eq_ok (p : DistanceTablePlugin) (rp : RouteParameters)
    (json_result : json.Object) (code : Int) (json_after : json.Object)
    (hval : passes_validation p rp)
    (h : (HandleRequest p rp json_result).result = .ok (code, json_after)) :
    ∃ targets sources,
      (phantom_node_target_vector p rp).result = .ok targets ∧
      (phantom_node_source_vector p rp).result = .ok sources ∧
      (respond rp json_result targets sources (p.distance_table targets sources)).result =
        .ok (code, json_after) := by
  rw [HandleRequest_of_passes p rp json_result hval] at h
  obtain ⟨targets, ht, h⟩ := (Run.result_bind_eq_ok _ _ _).1 h
  obtain ⟨sources, hs, h⟩ := (Run.result_bind_eq_ok _ _ _).1 h
  obtain ⟨table, hc, h⟩ := (Run.result_bind_eq_ok _ _ _).1 h
  simp only [Run.call, Outcome.ok.injEq] at hc
  subst hc
  exact ⟨targets, sources, ht, hs, h⟩

/-- The result of the handler, once both groups are resolved. -/
theorem HandleRequest_result_of_resolved (p : DistanceTablePlugin) (rp : RouteParameters)
    (json_result : json.Object) (targets sources : PhantomNodeArray)
    (hval : passes_validation p rp)
    (ht : (phantom_node_target_vector p rp).result = .ok targets)
    (hs : (phantom_node_source_vector p rp).result = .ok sources) :
    (HandleRequest p rp json_result).result =
      (respond rp json_result targets sources (p.distance_table targets sources)).result := by
  rw [HandleRequest_of_passes p rp json_result hval, Run.result_bind_ok _ ht,
    Run.result_bind_ok _ hs]
  exact Run.result_bind_ok _ rfl

/-- The sample facade finds a valid anchor for every location. -/
theorem search_finds_valid_sample (cap : Int) (table : Option (List EdgeWeight)) :
    search_finds_valid (sample_plugin cap table) :=
  fun c _ _ => ⟨snap c, [], rfl, rfl⟩

/-- The rows of a matrix over a table with a cost for every pair all have as many
entries as there are targets. -/
theorem length_of_mem_rows (table : List EdgeWeight) (count_rows count_columns : Nat)
    (h : count_rows * count_columns ≤ table.length) (values : List EdgeWeight)
    (hmem : values ∈ (List.range count_rows).map fun row =>
      (table.drop (row * count_columns)).take count_columns) :
    values.length = count_columns := by
  obtain ⟨row, hrow, rfl⟩ := List.mem_map.1 hmem
  have hrow := List.mem_range.1 hrow
  have h2 : (row + 1) * count_columns ≤ count_rows * count_columns :=
    Nat.mul_le_mul_right _ hrow
  rw [List.length_take, List.length_drop]
  have h3 : (row + 1) * count_columns = row * count_columns + count_columns := by ring
  omega

/-- A request that passes validation and whose resolution meets no fault is answered 200
with the matrix, when the engine returns a table with a cost for every pair. -/
theorem HandleRequest_returns_200 (p : DistanceTablePlugin) (rp : RouteParameters)
    (json_result : json.Object) (hval : passes_validation p rp) (hfit : representable rp)
    (hsearch : search_finds_valid p) (hhints : source_hints_in_range p rp)
    (hengine : ∀ targets sources, targets.length = max_locations_target p rp →
      sources.length = max_locations_source p rp →
      ∃ table, p.distance_table targets sources = some table ∧
        number_of_sources targets sources * targets.length ≤ table.length) :
    ∃ (json_after : json.Object) (targets sources : PhantomNodeArray)
        (table : List EdgeWeight),
      (HandleRequest p rp json_result).result = .ok (200, json_after) ∧
      targets.length = max_locations_target p rp ∧
      sources.length = max_locations_source p rp ∧
      number_of_sources targets sources * targets.length ≤ table.length ∧
      json_after.get "distance_table" = some (.matrix
        ((List.range (number_of_sources targets sources)).map fun row =>
          (table.drop (row * targets.length)).take targets.length)) := by
  obtain ⟨targets, ht, htlen, htne⟩ :=
    phantom_node_target_vector_returns p rp hfit hval.2.2 hsearch
  obtain ⟨sources, hs, hslen, hsne⟩ :=
    phantom_node_source_vector_returns p rp hfit hval.2.2 hsearch hhints
  obtain ⟨table, htable, hlen⟩ := hengine targets sources htlen hslen
  obtain ⟨json_after, rows, hr, hrows, hget⟩ :=
    respond_returns_200 rp json_result targets sources table hlen htne hsne
  refine ⟨json_after, targets, sources, table, ?_, htlen, hslen, hlen, ?_⟩
  · rw [HandleRequest_result_of_resolved p rp json_result targets sources hval ht hs,
      htable]
    exact hr
  · rw [hget, matrix_json_array_rows targets sources table rows hrows]

/-! ## C1: the matrix of a Symmetric request -/

/-- C1, as stated, fails: with cap 1 the valid Symmetric request of 2 coordinates, to
which the engine returns a table, is answered 200 with a `distance_table` of 1 row of 1
entry, not 2 rows of 2 entries. -/
theorem C1_counterexample :
    passes_validation (sample_plugin 1 (some [0])) symmetric_request ∧
    symmetric_request.coordinates.length = 2 ∧
    (HandleRequest (sample_plugin 1 (some [0])) symmetric_request []).result =
      .ok (200, [("distance_table", .matrix [[0]])]) := by
  decide

/-- C1, amended: a valid Symmetric request of `N` coordinates (passing validation, its
sources and destinations are empty), for which the facade finds
a valid anchor at every location and the engine returns a table with a cost for every
pair of resolved locations, is answered 200, and the emitted `distance_table` has exactly
`min c N` rows of exactly `min c N` entries each, `c` being the cap converted to
`unsigned`; so `N` rows of `N` entries when `N ≤ c`. -/
theorem C1_symmetric_matrix_dimensions (p : DistanceTablePlugin) (rp : RouteParameters)
    (json_result : json.Object)
    (hcoords : rp.coordinates ≠ []) (hval : passes_validation p rp) (hfit : representable rp)
    (hsearch : search_finds_valid p)
    (hengine : ∀ targets : PhantomNodeArray,
      targets.length =
        min (static_cast_unsigned p.max_locations_distance_table) rp.coordinates.length →
      ∃ table, p.distance_table targets [] = some table ∧
        targets.length * targets.length ≤ table.length) :
    ∃ (json_after : json.Object) (rows : List (List EdgeWeight)),
      (HandleRequest p rp json_result).result = .ok (200, json_after) ∧
      json_after.get "distance_table" = some (.matrix rows) ∧
      rows.length =
        min (static_cast_unsigned p.max_locations_distance_table) rp.coordinates.length ∧
      (∀ values ∈ rows, values.length =
        min (static_cast_unsigned p.max_locations_distance_table) rp.coordinates.length) ∧
      (rp.coordinates.length ≤ static_cast_unsigned p.max_locations_distance_table →
        rows.length = rp.coordinates.length ∧
          ∀ values ∈ rows, values.length = rp.coordinates.length) := by
  have hsame : useSameTgtSrc rp = true := by
    cases hc : rp.coordinates with
    | nil => exact absurd hc hcoords
    | cons c cs => simp [useSameTgtSrc, hc]
  have hmt : max_locations_target p rp =
      min (static_cast_unsigned p.max_locations_distance_table) rp.coordinates.length := by
    have := hfit.1
    simp only [max_locations_target, hsame, if_true, size_to_unsigned]
    rw [Nat.mod_eq_of_lt this]
  have hms : max_locations_source p rp = 0 := by
    simp [max_locations_source, hsame]
  have hh : source_hints_in_range p rp := by
    right
    simp [shift_coordinates, hsame]
  obtain ⟨json_after, targets, sources, table, hres, htlen, hslen, hlen, hget⟩ :=
    HandleRequest_returns_200 p rp json_result hval hfit hsearch hh (by
      intro targets sources htl hsl
      rw [hms] at hsl
      have hnil : sources = [] := List.length_eq_zero.1 hsl
      subst hnil
      rw [hmt] at htl
      obtain ⟨table, h1, h2⟩ := hengine targets htl
      exact ⟨table, h1, by simpa [number_of_sources] using h2⟩)
  rw [hms] at hslen
  have hnil : sources = [] := List.length_eq_zero.1 hslen
  subst hnil
  have hn : number_of_sources targets [] = targets.length := by simp [number_of_sources]
  rw [hn] at hget hlen
  rw [hmt] at htlen
  have hrows : ∀ values ∈ (List.range targets.length).map (fun row =>
      (table.drop (row * targets.length)).take targets.length),
      values.length = targets.length :=
    fun values hv => length_of_mem_rows table _ _ hlen values hv
  refine ⟨json_after, _, hres, hget, ?_, ?_, ?_⟩
  · simp [htlen]
  · intro values hv
    rw [← htlen]
    exact hrows values hv
  · intro hle
    have hmin : min (static_cast_unsigned p.max_locations_distance_table)
        rp.coordinates.length = rp.coordinates.length := Nat.min_eq_right hle
    rw [hmin] at htlen
    refine ⟨by simp [htlen], ?_⟩
    intro values hv
    rw [← htlen]
    exact hrows values hv

/-- C1, amended, at the Symmetric request of 2 coordinates with cap 10 and the table
`[0, 5, 5, 0]`. -/
theorem C1_symmetric_matrix_dimensions_witness :
    ∃ (json_after : json.Object) (rows : List (List EdgeWeight)),
      (HandleRequest (sample_plugin 10 (some [0, 5, 5, 0])) symmetric_request []).result =
        .ok (200, json_after) ∧
      json_after.get "distance_table" = some (.matrix rows) ∧
      rows.length = min (static_cast_unsigned 10) 2 ∧
      (∀ values ∈ rows, values.length = min (static_cast_unsigned 10) 2) ∧
      (2 ≤ static_cast_unsigned 10 →
        rows.length = 2 ∧ ∀ values ∈ rows, values.length = 2) :=
  C1_symmetric_matrix_dimensions (sample_plugin 10 (some [0, 5, 5, 0])) symmetric_request []
    (by decide) (by decide) (by decide) (search_finds_valid_sample _ _)
    (fun targets h => ⟨[0, 5, 5, 0], rfl, by
      have h2 : targets.length = 2 := h
      rw [h2]
      decide⟩)

/-! ## C2: the matrix of an Asymmetric request -/

/-- C2, as stated, fails: with cap `-2` the valid Asymmetric request of 2 sources and 2
destinations, to which the engine returns a table of `min(2, -2) * min(2, -2) = 4`
entries, is answered 200 with a `distance_table` of 2 rows of 2 entries, not of
`min(2, -2)` rows. -/
theorem C2_counterexample :
    passes_validation (sample_plugin (-2) (some [1, 2, 3, 4])) asymmetric_request_2x2 ∧
    (([1, 2, 3, 4] : List EdgeWeight).length : Int) = min 2 (-2) * min 2 (-2) ∧
    (HandleRequest (sample_plugin (-2) (some [1, 2, 3, 4])) asymmetric_request_2x2 []).result =
      .ok (200, [("distance_table", .matrix [[1, 2], [3, 4]])]) ∧
    (([[1, 2], [3, 4]] : List (List EdgeWeight)).length : Int) ≠ min 2 (-2) := by
  decide

/-- C2, amended: a valid Asymmetric request of `S ≥ 1` sources and `T` destinations, for
which the facade finds a valid anchor at every location and the source loop reads no hint
past the end, is answered 200 when the engine returns a table of `min c S * min c T`
entries, and the emitted `distance_table` has exactly `min c S` rows of exactly `min c T`
entries each, `c` being the cap converted to `unsigned` (the cap itself when it is not
negative). -/
theorem C2_asymmetric_matrix_dimensions (p : DistanceTablePlugin) (rp : RouteParameters)
    (json_result : json.Object)
    (hcoords : rp.coordinates = []) (hsrc : rp.sources ≠ [])
    (hval : passes_validation p rp) (hfit : representable rp)
    (hsearch : search_finds_valid p) (hhints : source_hints_in_range p rp)
    (hengine : ∀ targets sources : PhantomNodeArray,
      targets.length =
        min (static_cast_unsigned p.max_locations_distance_table) rp.destinations.length →
      sources.length =
        min (static_cast_unsigned p.max_locations_distance_table) rp.sources.length →
      ∃ table, p.distance_table targets sources = some table ∧
        table.length =
          min (static_cast_unsigned p.max_locations_distance_table) rp.sources.length *
          min (static_cast_unsigned p.max_locations_distance_table)
            rp.destinations.length) :
    ∃ (json_after : json.Object) (rows : List (List EdgeWeight)),
      (HandleRequest p rp json_result).result = .ok (200, json_after) ∧
      json_after.get "distance_table" = some (.matrix rows) ∧
      rows.length =
        min (static_cast_unsigned p.max_locations_distance_table) rp.sources.length ∧
      (∀ values ∈ rows, values.length =
        min (static_cast_unsigned p.max_locations_distance_table) rp.destinations.length) ∧
      (0 ≤ p.max_locations_distance_table → p.max_locations_distance_table < 4294967296 →
        (static_cast_unsigned p.max_locations_distance_table : Int) =
          p.max_locations_distance_table) := by
  have hsame : useSameTgtSrc rp = false := by simp [useSameTgtSrc, hcoords]
  obtain ⟨-, hfit2, -, -⟩ := id hfit
  have hmt : max_locations_target p rp =
      min (static_cast_unsigned p.max_locations_distance_table)
        rp.destinations.length := by
    simp only [max_locations_target, hsame, Bool.false_eq_true, if_false, size_to_unsigned]
    rw [Nat.mod_eq_of_lt (by omega)]
  have hms : max_locations_source p rp =
      min (static_cast_unsigned p.max_locations_distance_table) rp.sources.length := by
    simp only [max_locations_source, hsame, Bool.not_false, if_true, size_to_unsigned]
    rw [Nat.mod_eq_of_lt (by omega)]
  have hspos : 0 < rp.sources.length := List.length_pos.2 hsrc
  have hnum : ∀ targets sources : PhantomNodeArray,
      targets.length = max_locations_target p rp →
      sources.length = max_locations_source p rp →
      number_of_sources targets sources = sources.length := by
    intro targets sources htl hsl
    unfold number_of_sources
    split
    · rfl
    · rename_i h0
      simp only [bne_iff_ne, ne_eq, Decidable.not_not] at h0
      rw [htl, hmt, h0]
      rw [hsl, hms] at h0
      have : static_cast_unsigned p.max_locations_distance_table = 0 := by omega
      simp [this]
  obtain ⟨json_after, targets, sources, table, hres, htlen, hslen, hlen, hget⟩ :=
    HandleRequest_returns_200 p rp json_result hval hfit hsearch hhints (by
      intro targets sources htl hsl
      obtain ⟨table, h1, h2⟩ := hengine targets sources (hmt ▸ htl) (hms ▸ hsl)
      refine ⟨table, h1, ?_⟩
      rw [hnum targets sources htl hsl, h2, hsl, htl, hms, hmt])
  rw [hnum targets sources htlen hslen] at hget hlen
  refine ⟨json_after, _, hres, hget, ?_, ?_, ?_⟩
  · simp [hslen, hms]
  · intro values hv
    rw [← hmt, ← htlen]
    exact length_of_mem_rows table _ _ hlen values hv
  · intro h0 h1
    unfold static_cast_unsigned
    rw [Int.emod_eq_of_lt h0 h1]
    exact Int.toNat_of_nonneg h0

/-- C2, amended, at the request of 1 source and 2 destinations with cap 10 and the table
`[3, 4]`, which gives the matrix `[[3, 4]]`. -/
theorem C2_asymmetric_matrix_dimensions_witness :
    (∃ (json_after : json.Object) (rows : List (List EdgeWeight)),
      (HandleRequest (sample_plugin 10 (some [3, 4])) asymmetric_request []).result =
        .ok (200, json_after) ∧
      json_after.get "distance_table" = some (.matrix rows) ∧
      rows.length = min (static_cast_unsigned 10) 1 ∧
      (∀ values ∈ rows, values.length = min (static_cast_unsigned 10) 2) ∧
      ((0 : Int) ≤ 10 → (10 : Int) < 4294967296 →
        (static_cast_unsigned 10 : Int) = 10)) ∧
    (HandleRequest (sample_plugin 10 (some [3, 4])) asymmetric_request []).result =
      .ok (200, [("distance_table", .matrix [[3, 4]])]) :=
  ⟨C2_asymmetric_matrix_dimensions (sample_plugin 10 (some [3, 4])) asymmetric_request []
    rfl (by decide) (by decide) (by decide) (search_finds_valid_sample _ _) (by decide)
    (fun _ _ _ _ => ⟨[3, 4], rfl, by decide⟩), by decide⟩

/-! ## C3 and C4: reshaping the table -/

/-- A request answered 200 passed validation. -/
theorem passes_validation_of_200 (p : DistanceTablePlugin) (rp : RouteParameters)
    (json_result json_after : json.Object)
    (h : (HandleRequest p rp json_result).result = .ok (200, json_after)) :
    passes_validation p rp := by
  by_contra hval
  obtain ⟨j, hj⟩ := HandleRequest_of_rejected p rp json_result hval
  rw [hj] at h
  simp at h

/-- What an answer of 200 holds: both groups were resolved, the engine returned a table,
every row's range lies within it, and `distance_table` holds these ranges, one per
source. -/
theorem HandleRequest_200_matrix (p : DistanceTablePlugin) (rp : RouteParameters)
    (json_result json_after : json.Object)
    (h : (HandleRequest p rp json_result).result = .ok (200, json_after)) :
    ∃ (targets sources : PhantomNodeArray) (table : List EdgeWeight),
      (phantom_node_target_vector p rp).result = .ok targets ∧
      (phantom_node_source_vector p rp).result = .ok sources ∧
      p.distance_table targets sources = some table ∧
      (∀ row < number_of_sources targets sources,
        (row + 1) * targets.length ≤ table.length) ∧
      json_after.get "distance_table" = some (.matrix
        ((List.range (number_of_sources targets sources)).map fun row =>
          (table.drop (row * targets.length)).take targets.length)) := by
  have hval := passes_validation_of_200 p rp json_result json_after h
  obtain ⟨targets, sources, ht, hs, hr⟩ :=
    HandleRequest_result_eq_ok p rp json_result 200 json_after hval h
  rcases respond_result_eq_ok _ _ _ _ _ _ _ hr with ⟨-, h400, -⟩ | ⟨t, rows, ht2, -, hm, hg⟩
  · norm_num at h400
  · refine ⟨targets, sources, t, ht, hs, ht2, ?_, ?_⟩
    · exact fun row hrow => matrix_json_array_in_range targets sources t rows hm row hrow
    · rw [hg, matrix_json_array_rows targets sources t rows hm]

/-- The rows of the matrix, one after the other, are the first `rows * columns` entries
of the table. -/
theorem join_rows (table : List EdgeWeight) (count_rows count_columns : Nat) :
    ((List.range count_rows).map fun row =>
      (table.drop (row * count_columns)).take count_columns).flatten =
      table.take (count_rows * count_columns) := by
  induction count_rows with
  | zero => simp
  | succ n ih =>
    rw [List.range_succ, List.map_append, List.flatten_append, ih]
    have : (n + 1) * count_columns = n * count_columns + count_columns := by ring
    rw [this, List.take_add]
    simp

/-- C3: on success, with `columns` the size of the target group and `rows` the size of
the source group if it is not empty and else the size of the target group, the emitted
`distance_table` has `rows` rows, and for every `r < rows` the range
`[r * columns, (r + 1) * columns)` lies within the engine's table and row `r` is that
range, in the same order: its entry `j` is entry `r * columns + j` of the table. -/
theorem C3_rows_are_slices (p : DistanceTablePlugin) (rp : RouteParameters)
    (json_result json_after : json.Object)
    (h : (HandleRequest p rp json_result).result = .ok (200, json_after)) :
    ∃ (targets sources : PhantomNodeArray) (table : List EdgeWeight)
        (matrix : List (List EdgeWeight)),
      (phantom_node_target_vector p rp).result = .ok targets ∧
      (phantom_node_source_vector p rp).result = .ok sources ∧
      p.distance_table targets sources = some table ∧
      json_after.get "distance_table" = some (.matrix matrix) ∧
      matrix.length = (if sources.length ≠ 0 then sources.length else targets.length) ∧
      ∀ r, r < (if sources.length ≠ 0 then sources.length else targets.length) →
        (r + 1) * targets.length ≤ table.length ∧
        matrix[r]? = some ((table.drop (r * targets.length)).take targets.length) ∧
        ∀ j < targets.length,
          (matrix.getD r []).get? j = table.get? (r * targets.length + j) := by
  obtain ⟨targets, sources, table, ht, hs, htable, hin, hget⟩ :=
    HandleRequest_200_matrix p rp json_result json_after h
  have hn : number_of_sources targets sources =
      if sources.length ≠ 0 then sources.length else targets.length := by
    simp [number_of_sources]
  rw [hn] at hin hget
  refine ⟨targets, sources, table, _, ht, hs, htable, hget, by simp, ?_⟩
  generalize (if sources.length ≠ 0 then sources.length else targets.length) = n at hin
  intro r hr
  have hrow : ((List.range n).map fun row =>
        (table.drop (row * targets.length)).take targets.length)[r]? =
      some ((table.drop (r * targets.length)).take targets.length) := by
    simp [List.getElem?_map, List.getElem?_range hr]
  refine ⟨hin r hr, hrow, ?_⟩
  intro j hj
  rw [List.getD_eq_getElem?_getD, hrow]
  simp [List.getElem?_take, hj, List.getElem?_drop]

/-- C3 at the Symmetric request of 2 coordinates with cap 10 and the table
`[0, 5, 5, 0]`, which gives the matrix `[[0, 5], [5, 0]]`. -/
theorem C3_rows_are_slices_witness :
    (HandleRequest (sample_plugin 10 (some [0, 5, 5, 0])) symmetric_request []).result =
      .ok (200, [("distance_table", .matrix [[0, 5], [5, 0]])]) ∧
    ∃ (targets sources : PhantomNodeArray) (table : List EdgeWeight)
        (matrix : List (List EdgeWeight)),
      (phantom_node_target_vector (sample_plugin 10 (some [0, 5, 5, 0]))
        symmetric_request).result = .ok targets ∧
      (phantom_node_source_vector (sample_plugin 10 (some [0, 5, 5, 0]))
        symmetric_request).result = .ok sources ∧
      (sample_plugin 10 (some [0, 5, 5, 0])).distance_table targets sources = some table ∧
      json.Object.get [("distance_table", .matrix [[0, 5], [5, 0]])] "distance_table" =
        some (.matrix matrix) ∧
      matrix.length = (if sources.length ≠ 0 then sources.length else targets.length) ∧
      ∀ r, r < (if sources.length ≠ 0 then sources.length else targets.length) →
        (r + 1) * targets.length ≤ table.length ∧
        matrix[r]? = some ((table.drop (r * targets.length)).take targets.length) ∧
        ∀ j < targets.length,
          (matrix.getD r []).get? j = table.get? (r * targets.length + j) :=
  ⟨by decide,
    C3_rows_are_slices (sample_plugin 10 (some [0, 5, 5, 0])) symmetric_request [] _
      (by decide)⟩

/-- C4: the reshaping is lossless. On success the rows of the emitted `distance_table`,
one after the other, are the first `rows * columns` entries of the engine's table, so the
matrix has `rows * columns` entries; whenever the table has exactly `rows * columns`
entries, they are the table itself. -/
theorem C4_reshaping_lossless (p : DistanceTablePlugin) (rp : RouteParameters)
    (json_result json_after : json.Object)
    (h : (HandleRequest p rp json_result).result = .ok (200, json_after)) :
    ∃ (targets sources : PhantomNodeArray) (table : List EdgeWeight)
        (matrix : List (List EdgeWeight)),
      (phantom_node_target_vector p rp).result = .ok targets ∧
      (phantom_node_source_vector p rp).result = .ok sources ∧
      p.distance_table targets sources = some table ∧
      json_after.get "distance_table" = some (.matrix matrix) ∧
      matrix.flatten.length =
        (if sources.length ≠ 0 then sources.length else targets.length) * targets.length ∧
      (table.length =
          (if sources.length ≠ 0 then sources.length else targets.length) * targets.length →
        matrix.flatten = table) := by
  obtain ⟨targets, sources, table, ht, hs, htable, hin, hget⟩ :=
    HandleRequest_200_matrix p rp json_result json_after h
  have hn : number_of_sources targets sources =
      if sources.length ≠ 0 then sources.length else targets.length := by
    simp [number_of_sources]
  rw [hn] at hin hget
  refine ⟨targets, sources, table, _, ht, hs, htable, hget, ?_, ?_⟩
  · rw [join_rows, List.length_take]
    apply Nat.min_eq_left
    generalize (if sources.length ≠ 0 then sources.length else targets.length) = n at hin
    cases n with
    | zero => simp
    | succ m => exact hin m (Nat.lt_succ_self m)
  · intro hlen
    rw [join_rows, ← hlen, List.take_length]

/-- C4 at the Asymmetric request of 1 source and 2 destinations with cap 10 and the
table `[3, 4]`. -/
theorem C4_reshaping_lossless_witness :
    (HandleRequest (sample_plugin 10 (some [3, 4])) asymmetric_request []).result =
      .ok (200, [("distance_table", .matrix [[3, 4]])]) ∧
    ∃ (targets sources : PhantomNodeArray) (table : List EdgeWeight)
        (matrix : List (List EdgeWeight)),
      (phantom_node_target_vector (sample_plugin 10 (some [3, 4]))
        asymmetric_request).result = .ok targets ∧
      (phantom_node_source_vector (sample_plugin 10 (some [3, 4]))
        asymmetric_request).result = .ok sources ∧
      (sample_plugin 10 (some [3, 4])).distance_table targets sources = some table ∧
      json.Object.get [("distance_table", .matrix [[3, 4]])] "distance_table" =
        some (.matrix matrix) ∧
      matrix.flatten.length =
        (if sources.length ≠ 0 then sources.length else targets.length) * targets.length ∧
      (table.length =
          (if sources.length ≠ 0 then sources.length else targets.length) * targets.length →
        matrix.flatten = table) :=
  ⟨by decide,
    C4_reshaping_lossless (sample_plugin 10 (some [3, 4])) asymmetric_request [] _
      (by decide)⟩

/-! ## C5: ambiguous mode -/

/-- C5: a request whose coordinate list is not empty and whose sources list or
destinations list is not empty is answered 400, whatever its other fields and whatever
the plugin's collaborators are; nothing is done and the result is left untouched. -/
theorem C5_ambiguous_mode_rejected (p : DistanceTablePlugin) (rp : RouteParameters)
    (json_result : json.Object) (hcoords : rp.coordinates ≠ [])
    (h : rp.sources ≠ [] ∨ rp.destinations ≠ []) :
    HandleRequest p rp json_result = ⟨[], .ok (400, json_result)⟩ := by
  have h1 : rp.coordinates.length ≠ 0 := fun h0 => hcoords (List.length_eq_zero.1 h0)
  have h2 : rp.sources.length ≠ 0 ∨ rp.destinations.length ≠ 0 := by
    rcases h with h | h
    · exact Or.inl fun h0 => h (List.length_eq_zero.1 h0)
    · exact Or.inr fun h0 => h (List.length_eq_zero.1 h0)
  have hamb : ambiguous rp = true := by
    unfold ambiguous useSameTgtSrc
    rcases h2 with h2 | h2 <;> simp [h1, h2]
  simp [HandleRequest, hamb, Run.pure_def, Run.pure]

/-- C5 at a request with two coordinates and one source. -/
theorem C5_ambiguous_mode_rejected_witness :
    HandleRequest (sample_plugin 10 (some [0, 5, 5, 0])) ambiguous_request [] =
      ⟨[], .ok (400, [])⟩ :=
  C5_ambiguous_mode_rejected _ ambiguous_request [] (by decide) (Or.inl (by decide))

/-! ## C6: the coordinate check in Asymmetric mode -/

/-- C6, the code at a request whose destinations fail the coordinate check while its
sources pass: line 80 rejects only when both lists fail, so the request is not rejected;
the out-of-range destination goes to the nearest-edge search and the answer is 200. -/
theorem C6_invalid_destinations_accepted :
    request_with_invalid_destination.coordinates = [] ∧
    check_all_coordinates request_with_invalid_destination.destinations (some 2) = false ∧
    check_all_coordinates request_with_invalid_destination.sources (some 1) = true ∧
    coordinates_rejected (sample_plugin 10 (some [3, 4]))
      request_with_invalid_destination = false ∧
    Event.IncrementalFindPhantomNodeForCoordinate ⟨200000000, 0⟩ 1 0 180 ∈
      (HandleRequest (sample_plugin 10 (some [3, 4]))
        request_with_invalid_destination []).trace ∧
    (HandleRequest (sample_plugin 10 (some [3, 4]))
      request_with_invalid_destination []).result =
      .ok (200, [("distance_table", .matrix [[3, 4]])]) := by
  decide

/-! ## C7: the bearing count -/

/-- C7, as stated, fails: a request with a coordinate list and a sources list, and with
three bearings for `total_points = 2`, is answered 400 at line 76, before the bearing
check, and its result gets no `status`. -/
theorem C7_counterexample :
    ambiguous_request_with_bearings.bearings ≠ [] ∧
    ambiguous_request_with_bearings.bearings.length ≠
      total_points ambiguous_request_with_bearings ∧
    HandleRequest (sample_plugin 10 (some [0, 5, 5, 0])) ambiguous_request_with_bearings [] =
      ⟨[], .ok (400, [])⟩ ∧
    json.Object.get [] "status" = none := by
  decide

/-- In a request whose sizes are representable, `nb_coordinates` is `total_points`. -/
theorem nb_coordinates_eq_total_points (rp : RouteParameters) (hfit : representable rp) :
    nb_coordinates rp = total_points rp := by
  obtain ⟨h1, h2, -, -⟩ := hfit
  unfold nb_coordinates total_points useSameTgtSrc size_to_unsigned
  cases hc : rp.coordinates with
  | nil =>
    simp only [List.length_nil, bne_self_eq_false, Bool.false_eq_true, if_false, ne_eq,
      not_true_eq_false]
    omega
  | cons c cs =>
    rw [hc] at h1
    simp only [List.length_cons, ne_eq, reduceCtorEq, not_false_eq_true, if_true]
    simp only [List.length_cons] at h1
    have : (cs.length + 1 != 0) = true := by simp
    simp only [this, if_true]
    omega

/-- C7, amended: of the requests that passed the mode check and the coordinate check,
those with a non-empty bearing list whose length differs from `total_points` are answered
400 with `status` set to the mismatch message, nothing else being done; all others, an
empty bearing list among them, are not rejected at this stage and go on to resolution. -/
theorem C7_bearing_count_mismatch (p : DistanceTablePlugin) (rp : RouteParameters)
    (json_result : json.Object) (hfit : representable rp)
    (hmode : ambiguous rp = false) (hcheck : coordinates_rejected p rp = false) :
    (rp.bearings ≠ [] ∧ rp.bearings.length ≠ total_points rp →
      HandleRequest p rp json_result =
        ⟨[], .ok (400, json_result.set "status" (.string bearings_status))⟩ ∧
      (json_result.set "status" (.string bearings_status)).get "status" =
        some (.string "Number of bearings does not match number of coordinates .")) ∧
    (¬ (rp.bearings ≠ [] ∧ rp.bearings.length ≠ total_points rp) →
      HandleRequest p rp json_result =
        Run.bind (phantom_node_target_vector p rp) fun targets =>
        Run.bind (phantom_node_source_vector p rp) fun sources =>
        Run.bind (Run.call (.distance_table targets sources)
          (p.distance_table targets sources)) fun result_table =>
        respond rp json_result targets sources result_table) := by
  have hrej : bearings_rejected rp = true ↔
      (rp.bearings ≠ [] ∧ rp.bearings.length ≠ total_points rp) := by
    unfold bearings_rejected
    rw [nb_coordinates_eq_total_points rp hfit]
    simp only [gt_iff_lt, Bool.and_eq_true, decide_eq_true_eq, bne_iff_ne, ne_eq,
      List.length_pos]
    constructor
    · rintro ⟨h1, h2⟩
      exact ⟨h1, fun h => h2 h.symm⟩
    · rintro ⟨h1, h2⟩
      exact ⟨h1, fun h => h2 h.symm⟩
  constructor
  · intro h
    have hb := hrej.2 h
    refine ⟨?_, json.Object.get_set_self _ _ _⟩
    simp [HandleRequest, hmode, hcheck, hb, Run.pure_def, Run.pure]
  · intro h
    have hb : bearings_rejected rp = false := by
      cases hbr : bearings_rejected rp with
      | false => rfl
      | true => exact absurd (hrej.1 hbr) h
    exact HandleRequest_of_passes p rp json_result ⟨hmode, hcheck, hb⟩

/-- C7, amended, at the Symmetric request of two coordinates with three bearings. -/
theorem C7_bearing_count_mismatch_witness :
    (HandleRequest (sample_plugin 10 (some [0, 5, 5, 0]))
        symmetric_request_with_three_bearings [] =
      ⟨[], .ok (400,
        [("status", .string "Number of bearings does not match number of coordinates .")])⟩) ∧
    (HandleRequest (sample_plugin 10 (some [0, 5, 5, 0])) symmetric_request []).result =
      .ok (200, [("distance_table", .matrix [[0, 5], [5, 0]])]) :=
  ⟨((C7_bearing_count_mismatch (sample_plugin 10 (some [0, 5, 5, 0]))
      symmetric_request_with_three_bearings [] (by decide) (by decide) (by decide)).1
      (by decide)).1,
    by
      rw [(C7_bearing_count_mismatch (sample_plugin 10 (some [0, 5, 5, 0]))
        symmetric_request [] (by decide) (by decide) (by decide)).2 (by decide)]
      decide⟩

/-! ## C8: the engine returns no table -/

/-- C8: when a request passes validation, its groups are resolved and the engine returns
no table for them, the answer is 400 and the result is as it was before the call: it
gains no `distance_table` and no mapped coordinates. In particular this is the answer
whenever the engine returns no table at all, the facade finds a valid anchor at every
location and the source loop reads no hint past the end. -/
theorem C8_absent_table_rejected (p : DistanceTablePlugin) (rp : RouteParameters)
    (json_result : json.Object) (hval : passes_validation p rp) :
    (∀ targets sources,
      (phantom_node_target_vector p rp).result = .ok targets →
      (phantom_node_source_vector p rp).result = .ok sources →
      p.distance_table targets sources = none →
      (HandleRequest p rp json_result).result = .ok (400, json_result)) ∧
    (representable rp → search_finds_valid p → source_hints_in_range p rp →
      (∀ targets sources, p.distance_table targets sources = none) →
      (HandleRequest p rp json_result).result = .ok (400, json_result)) := by
  have key : ∀ targets sources,
      (phantom_node_target_vector p rp).result = .ok targets →
      (phantom_node_source_vector p rp).result = .ok sources →
      p.distance_table targets sources = none →
      (HandleRequest p rp json_result).result = .ok (400, json_result) := by
    intro targets sources ht hs hnone
    rw [HandleRequest_result_of_resolved p rp json_result targets sources hval ht hs,
      hnone]
    rfl
  refine ⟨key, ?_⟩
  intro hfit hsearch hhints hnone
  obtain ⟨targets, ht, -, -⟩ :=
    phantom_node_target_vector_returns p rp hfit hval.2.2 hsearch
  obtain ⟨sources, hs, -, -⟩ :=
    phantom_node_source_vector_returns p rp hfit hval.2.2 hsearch hhints
  exact key targets sources ht hs (hnone targets sources)

/-- C8 at the Symmetric request of two coordinates, with an engine that returns no
table. -/
theorem C8_absent_table_rejected_witness :
    (HandleRequest (sample_plugin 10 none) symmetric_request []).result = .ok (400, []) :=
  (C8_absent_table_rejected (sample_plugin 10 none) symmetric_request [] (by decide)).1
    [[snap c1], [snap c2]] [] (by decide) (by decide) rfl

/-! ## C9: cap truncation -/

theorem Run.read_result_eq_ok {α : Type} (e : Event) (v : List α) (k : Nat) (a : α) :
    (Run.read e v k).result = .ok a ↔ v[k]? = some a := by
  unfold Run.read
  cases v[k]? <;> simp

/-- A search that returns, was made at the location read, and returns what the facade
found there. -/
theorem find_phantom_node_result_eq_ok (p : DistanceTablePlugin) (rp : RouteParameters)
    (location : Run FixedPointCoordinate) (k : Nat) (entry : List PhantomNode)
    (h : (find_phantom_node p rp location k).result = .ok entry) :
    ∃ c bearing range, location.result = .ok c ∧
      entry = p.facade.IncrementalFindPhantomNodeForCoordinate c 1 bearing range := by
  unfold find_phantom_node at h
  simp only [Run.bind_def, Run.pure_def] at h
  obtain ⟨bearing, -, h⟩ := (Run.result_bind_eq_ok _ _ _).1 h
  obtain ⟨range, -, h⟩ := (Run.result_bind_eq_ok _ _ _).1 h
  obtain ⟨c, hc, h⟩ := (Run.result_bind_eq_ok _ _ _).1 h
  obtain ⟨v, hv, h⟩ := (Run.result_bind_eq_ok _ _ _).1 h
  obtain ⟨u, -, h⟩ := (Run.result_bind_eq_ok _ _ _).1 h
  simp only [Run.call, Outcome.ok.injEq] at hv
  simp only [Run.pure, Outcome.ok.injEq] at h
  exact ⟨c, bearing, range, hc, by rw [← h, ← hv]⟩

/-- An iteration that returns, leaves the anchor decoded from the hint at its index, or
what the facade found at its location. -/
theorem resolve_result_eq_ok (p : DistanceTablePlugin) (rp : RouteParameters)
    (checksum_OK in_bound : Bool) (k : Nat) (location : Run FixedPointCoordinate)
    (entry : List PhantomNode)
    (h : (resolve p rp checksum_OK in_bound k location).result = .ok entry) :
    (∃ hint, rp.hints[k]? = some hint ∧ entry = [p.DecodeFromBase64 hint]) ∨
      ∃ c bearing range, location.result = .ok c ∧
        entry = p.facade.IncrementalFindPhantomNodeForCoordinate c 1 bearing range := by
  unfold resolve at h
  simp only [Run.bind_def, Run.pure_def] at h
  obtain ⟨given, -, h⟩ := (Run.result_bind_eq_ok _ _ _).1 h
  split at h
  · obtain ⟨node, hnode, h⟩ := (Run.result_bind_eq_ok _ _ _).1 h
    split at h
    · left
      unfold decode_hint at hnode
      simp only [Run.bind_def] at hnode
      obtain ⟨hint, hhint, hnode⟩ := (Run.result_bind_eq_ok _ _ _).1 hnode
      simp only [Run.call, Outcome.ok.injEq] at hnode
      simp only [Run.pure, Outcome.ok.injEq] at h
      exact ⟨hint, (Run.read_result_eq_ok _ _ _ _).1 hhint, by rw [← h, ← hnode]⟩
    · exact Or.inr (find_phantom_node_result_eq_ok p rp location k entry h)
  · exact Or.inr (find_phantom_node_result_eq_ok p rp location k entry h)

/-- C9, as stated, fails: with cap `-1` the group resolved from a list of 2 coordinates
has 2 entries, not `min(-1, 2)`, and so exceeds the cap. -/
theorem C9_counterexample :
    (phantom_node_target_vector (sample_plugin (-1) none) symmetric_request).result =
      .ok [[snap c1], [snap c2]] ∧
    (([[snap c1], [snap c2]] : PhantomNodeArray).length : Int) ≠
      min (-1) (symmetric_request.coordinates.length : Int) ∧
    (sample_plugin (-1) none).max_locations_distance_table <
      (([[snap c1], [snap c2]] : PhantomNodeArray).length : Int) := by
  decide

/-- C9, amended: let `c` be the cap converted to `unsigned` (the cap itself when it is
not negative). A resolved target group has exactly `min c n` entries for the `n`
coordinates (Symmetric) or destinations (Asymmetric); a resolved source group has exactly
`min c n` entries for the `n` sources in Asymmetric mode and none in Symmetric mode; and
entry `i` of a group is what iteration `i` left: the anchor decoded from a hint, or what
the facade found at the `i`-th location of the list. No cap rejects: for a request that
passed the bearing check, with a facade that finds a valid anchor at every location and a
source loop that reads no hint past the end, both groups are resolved. -/
theorem C9_cap_truncation (p : DistanceTablePlugin) (rp : RouteParameters)
    (hfit : representable rp) :
    (∀ targets, (phantom_node_target_vector p rp).result = .ok targets →
      targets.length = min (static_cast_unsigned p.max_locations_distance_table)
        (if rp.coordinates ≠ [] then rp.coordinates.length
         else rp.destinations.length) ∧
      ∀ i < targets.length, ∃ entry, targets[i]? = some entry ∧
        (target_entry p rp i).result = .ok entry ∧
        ((∃ hint, rp.hints[i]? = some hint ∧ entry = [p.DecodeFromBase64 hint]) ∨
          ∃ c bearing range,
            (if rp.coordinates ≠ [] then rp.coordinates else rp.destinations)[i]? =
              some c ∧
            entry = p.facade.IncrementalFindPhantomNodeForCoordinate c 1 bearing range)) ∧
    (∀ sources, (phantom_node_source_vector p rp).result = .ok sources →
      sources.length = (if rp.coordinates ≠ [] then 0
        else min (static_cast_unsigned p.max_locations_distance_table)
          rp.sources.length) ∧
      ∀ i < sources.length, ∃ entry, sources[i]? = some entry ∧
        (source_entry p rp i).result = .ok entry ∧
        ((∃ hint, rp.hints[i + rp.destinations.length]? = some hint ∧
            entry = [p.DecodeFromBase64 hint]) ∨
          ∃ c bearing range, rp.sources[i]? = some c ∧
            entry = p.facade.IncrementalFindPhantomNodeForCoordinate c 1 bearing range)) ∧
    (bearings_rejected rp = false → search_finds_valid p → source_hints_in_range p rp →
      ∃ targets sources,
        (phantom_node_target_vector p rp).result = .ok targets ∧
        (phantom_node_source_vector p rp).result = .ok sources) ∧
    (0 ≤ p.max_locations_distance_table → p.max_locations_distance_table < 4294967296 →
      (static_cast_unsigned p.max_locations_distance_table : Int) =
        p.max_locations_distance_table) := by
  obtain ⟨hf1, hf2, -, -⟩ := id hfit
  have hsame : rp.coordinates ≠ [] → useSameTgtSrc rp = true := by
    intro hc
    unfold useSameTgtSrc
    cases hl : rp.coordinates with
    | nil => exact absurd hl hc
    | cons c cs => simp
  have hdiff : ¬ rp.coordinates ≠ [] → useSameTgtSrc rp = false := by
    intro hc
    have hnil : rp.coordinates = [] := not_not.1 hc
    simp [useSameTgtSrc, hnil]
  refine ⟨?_, ?_, ?_, ?_⟩
  · intro targets ht
    have htlen : targets.length = max_locations_target p rp := by
      simpa [phantom_node_target_vector] using Run.collect_length ht
    constructor
    · rw [htlen]
      unfold max_locations_target size_to_unsigned
      by_cases hc : rp.coordinates ≠ []
      · rw [if_pos hc, hsame hc, if_pos rfl, Nat.mod_eq_of_lt hf1]
      · rw [if_neg hc, hdiff hc, if_neg (by simp), Nat.mod_eq_of_lt (by omega)]
    · intro i hi
      rw [htlen] at hi
      obtain ⟨entry, hget, hentry⟩ := Run.collect_range_get ht i hi
      refine ⟨entry, hget, hentry, ?_⟩
      have hentry2 := hentry
      unfold target_entry at hentry2
      rcases resolve_result_eq_ok _ _ _ _ _ _ _ hentry2 with h | ⟨c, b, r, hc, he⟩
      · exact Or.inl h
      · right
        refine ⟨c, b, r, ?_, he⟩
        by_cases hcs : rp.coordinates ≠ []
        · rw [hsame hcs, if_pos rfl] at hc
          rw [if_pos hcs]
          exact (Run.read_result_eq_ok _ _ _ _).1 hc
        · rw [hdiff hcs, if_neg (by simp)] at hc
          rw [if_neg hcs]
          exact (Run.read_result_eq_ok _ _ _ _).1 hc
  · intro sources hs
    have hslen : sources.length = max_locations_source p rp := by
      simpa [phantom_node_source_vector] using Run.collect_length hs
    constructor
    · rw [hslen]
      unfold max_locations_source size_to_unsigned
      by_cases hc : rp.coordinates ≠ []
      · rw [if_pos hc, hsame hc, if_neg (by simp)]
      · rw [if_neg hc, hdiff hc, if_pos (by simp), Nat.mod_eq_of_lt (by omega)]
    · intro i hi
      rw [hslen] at hi
      obtain ⟨entry, hget, hentry⟩ := Run.collect_range_get hs i hi
      refine ⟨entry, hget, hentry, ?_⟩
      have hentry2 := hentry
      unfold source_entry at hentry2
      have hle := max_locations_source_le p rp
      have hshift : (i + shift_coordinates rp) % 4294967296 =
          i + rp.destinations.length := by
        cases hu : useSameTgtSrc rp
        · simp only [hu, Bool.false_eq_true, if_false] at hle
          unfold shift_coordinates size_to_unsigned
          simp only [hu, Bool.false_eq_true, if_false]
          omega
        · simp only [hu, if_true] at hle
          omega
      rw [hshift] at hentry2
      rcases resolve_result_eq_ok _ _ _ _ _ _ _ hentry2 with h | ⟨c, b, r, hc, he⟩
      · exact Or.inl h
      · exact Or.inr ⟨c, b, r, (Run.read_result_eq_ok _ _ _ _).1 hc, he⟩
  · intro hbear hsearch hhints
    obtain ⟨targets, ht, -, -⟩ :=
      phantom_node_target_vector_returns p rp hfit hbear hsearch
    obtain ⟨sources, hs, -, -⟩ :=
      phantom_node_source_vector_returns p rp hfit hbear hsearch hhints
    exact ⟨targets, sources, ht, hs⟩
  · intro h0 h1
    unfold static_cast_unsigned
    rw [Int.emod_eq_of_lt h0 h1]
    exact Int.toNat_of_nonneg h0

/-- C9, amended, at cap 2 and five coordinates: the group resolved is that of
coordinates 0 and 1, in that order, and the source group is empty. -/
theorem C9_cap_truncation_witness :
    ∃ targets sources : PhantomNodeArray,
      (phantom_node_target_vector (sample_plugin 2 none)
        symmetric_request_of_five).result = .ok targets ∧
      (phantom_node_source_vector (sample_plugin 2 none)
        symmetric_request_of_five).result = .ok sources ∧
      targets.length = 2 ∧ targets = [[snap c1], [snap c2]] ∧ sources = [] := by
  have key := C9_cap_truncation (sample_plugin 2 none) symmetric_request_of_five
    (by decide)
  obtain ⟨targets, sources, ht, hs⟩ :=
    key.2.2.1 (by decide) (search_finds_valid_sample _ _) (by decide)
  have ht2 : (phantom_node_target_vector (sample_plugin 2 none)
      symmetric_request_of_five).result = .ok [[snap c1], [snap c2]] := by decide
  have hs2 : (phantom_node_source_vector (sample_plugin 2 none)
      symmetric_request_of_five).result = .ok [] := by decide
  refine ⟨targets, sources, ht, hs, (key.1 targets ht).1, ?_, ?_⟩
  · rw [ht2] at ht
    exact (Outcome.ok.inj ht).symm
  · rw [hs2] at hs
    exact (Outcome.ok.inj hs).symm

/-! ## C10: the hint fast path -/

/-- An iteration whose guard holds and whose hint decodes to a valid anchor reads the
hint twice, decodes it, and leaves the decoded anchor alone in its entry. -/
theorem resolve_of_valid_hint (p : DistanceTablePlugin) (rp : RouteParameters)
    (k : Nat) (location : Run FixedPointCoordinate) (hint : String)
    (hhint : rp.hints[k]? = some hint) (hne : hint.isEmpty = false)
    (hvalid : p.is_valid (p.DecodeFromBase64 hint) p.facade.GetNumberOfNodes = true) :
    resolve p rp true true k location =
      ⟨[.hints k, .hints k, .DecodeFromBase64 hint], .ok [p.DecodeFromBase64 hint]⟩ := by
  simp [resolve, hint_given, decode_hint, Run.read, Run.call, Run.bind_def, Run.bind,
    Run.pure_def, Run.pure, hhint, hne, hvalid]

/-- C10: when the request's checksum is the graph's, an entry at whose logical index
there is a non-empty hint that decodes to an anchor valid against the node count, is
exactly that one decoded anchor, and its iteration makes no nearest-edge search: it reads
the hint and decodes it, nothing else. The logical index of target entry `i` is `i`, that
of source entry `i` is `i + shift_coordinates`. -/
theorem C10_hint_fast_path (p : DistanceTablePlugin) (rp : RouteParameters)
    (hfit : representable rp) (hsum : rp.check_sum = p.facade.GetCheckSum)
    (i : Nat) (hint : String) (hne : hint.isEmpty = false)
    (hvalid : p.is_valid (p.DecodeFromBase64 hint) p.facade.GetNumberOfNodes = true) :
    (rp.hints[i]? = some hint →
      target_entry p rp i =
        ⟨[.hints i, .hints i, .DecodeFromBase64 hint], .ok [p.DecodeFromBase64 hint]⟩ ∧
      (∀ c n bearing range,
        Event.IncrementalFindPhantomNodeForCoordinate c n bearing range ∉
          (target_entry p rp i).trace) ∧
      ∀ targets, (phantom_node_target_vector p rp).result = .ok targets →
        i < max_locations_target p rp → targets[i]? = some [p.DecodeFromBase64 hint]) ∧
    (i < max_locations_source p rp →
      rp.hints[i + shift_coordinates rp]? = some hint →
      source_entry p rp i =
        ⟨[.hints (i + shift_coordinates rp), .hints (i + shift_coordinates rp),
          .DecodeFromBase64 hint], .ok [p.DecodeFromBase64 hint]⟩ ∧
      (∀ c n bearing range,
        Event.IncrementalFindPhantomNodeForCoordinate c n bearing range ∉
          (source_entry p rp i).trace) ∧
      ∀ sources, (phantom_node_source_vector p rp).result = .ok sources →
        sources[i]? = some [p.DecodeFromBase64 hint]) := by
  have hcs : checksum_OK p rp = true := by simp [checksum_OK, hsum]
  constructor
  · intro hhint
    have hi : i < rp.hints.length := by
      by_contra hcon
      rw [List.getElem?_eq_none (by omega)] at hhint
      cases hhint
    have hentry : target_entry p rp i =
        ⟨[.hints i, .hints i, .DecodeFromBase64 hint],
          .ok [p.DecodeFromBase64 hint]⟩ := by
      unfold target_entry
      rw [hcs, decide_eq_true hi]
      exact resolve_of_valid_hint p rp i _ hint hhint hne hvalid
    refine ⟨hentry, ?_, ?_⟩
    · intro c n bearing range
      rw [hentry]
      simp
    · intro targets ht hlt
      obtain ⟨entry, hget, he⟩ := Run.collect_range_get ht i hlt
      rw [hentry] at he
      rw [hget, ← Outcome.ok.inj he]
  · intro hlt hhint
    obtain ⟨-, hf2, hf3, -⟩ := hfit
    have hle := max_locations_source_le p rp
    have hshift : shift_coordinates rp ≤ rp.destinations.length := by
      unfold shift_coordinates size_to_unsigned
      split
      · exact Nat.zero_le _
      · exact Nat.mod_le _ _
    have hsrc : i < rp.sources.length := by
      cases hu : useSameTgtSrc rp
      · simp only [hu, Bool.false_eq_true, if_false] at hle
        omega
      · simp only [hu, if_true] at hle
        omega
    have hk : i + shift_coordinates rp < rp.hints.length := by
      by_contra hcon
      rw [List.getElem?_eq_none (by omega)] at hhint
      cases hhint
    have hmod : (i + shift_coordinates rp) % 4294967296 = i + shift_coordinates rp :=
      Nat.mod_eq_of_lt (by omega)
    have hguard : i < (rp.hints.length + 18446744073709551616 - shift_coordinates rp)
        % 18446744073709551616 := by
      have : rp.hints.length + 18446744073709551616 - shift_coordinates rp =
          (rp.hints.length - shift_coordinates rp) + 18446744073709551616 := by omega
      rw [this, Nat.add_mod_right, Nat.mod_eq_of_lt (by omega)]
      omega
    have hentry : source_entry p rp i =
        ⟨[.hints (i + shift_coordinates rp), .hints (i + shift_coordinates rp),
          .DecodeFromBase64 hint], .ok [p.DecodeFromBase64 hint]⟩ := by
      unfold source_entry
      rw [hcs, decide_eq_true hguard, hmod]
      exact resolve_of_valid_hint p rp _ _ hint hhint hne hvalid
    refine ⟨hentry, ?_, ?_⟩
    · intro c n bearing range
      rw [hentry]
      simp
    · intro sources hs
      obtain ⟨entry, hget, he⟩ := Run.collect_range_get hs i hlt
      rw [hentry] at he
      rw [hget, ← Outcome.ok.inj he]

/-- C10 at the request with the graph's checksum, two destinations, one source and the
hints `""`, `"abc"`, `"de"`: the second target entry is the anchor decoded from `"abc"`,
the source entry the one decoded from `"de"`, and neither iteration searches. -/
theorem C10_hint_fast_path_witness :
    (target_entry (sample_plugin 10 none) hinted_request 1 =
        ⟨[.hints 1, .hints 1, .DecodeFromBase64 "abc"], .ok [⟨3, 3, ⟨0, 0⟩⟩]⟩ ∧
      source_entry (sample_plugin 10 none) hinted_request 0 =
        ⟨[.hints 2, .hints 2, .DecodeFromBase64 "de"], .ok [⟨2, 2, ⟨0, 0⟩⟩]⟩) ∧
    (phantom_node_target_vector (sample_plugin 10 none) hinted_request).result =
      .ok [[snap c1], [⟨3, 3, ⟨0, 0⟩⟩]] ∧
    (phantom_node_source_vector (sample_plugin 10 none) hinted_request).result =
      .ok [[⟨2, 2, ⟨0, 0⟩⟩]] :=
  ⟨⟨((C10_hint_fast_path (sample_plugin 10 none) hinted_request (by decide) rfl 1 "abc"
        (by decide) (by decide)).1 (by decide)).1,
      ((C10_hint_fast_path (sample_plugin 10 none) hinted_request (by decide) rfl 0 "de"
        (by decide) (by decide)).2 (by decide) (by decide)).1⟩,
    by decide, by decide⟩

/-! ## Traces -/

/-- The events of a sequence are those of its first part and, when that returns, those
of its second part. -/
theorem Run.mem_trace_bind {α β : Type} (r : Run α) (k : α → Run β) (e : Event) :
    e ∈ (Run.bind r k).trace ↔
      e ∈ r.trace ∨ ∃ a, r.result = .ok a ∧ e ∈ (k a).trace := by
  cases h : r.result with
  | ok a => simp [Run.bind, h]
  | fault f => simp [Run.bind, h]

/-- An event of a loop is an event of one of its iterations. -/
theorem Run.mem_trace_collect {α β : Type} (body : α → Run β) (xs : List α) (e : Event)
    (h : e ∈ (Run.collect body xs).trace) : ∃ x ∈ xs, e ∈ (body x).trace := by
  induction xs with
  | nil => simp [Run.collect, Run.pure] at h
  | cons x xs ih =>
    simp only [Run.collect, Run.mem_trace_bind, Run.pure, List.not_mem_nil, and_false,
      exists_false, or_false] at h
    rcases h with h | ⟨-, -, h⟩
    · exact ⟨x, List.mem_cons_self x xs, h⟩
    · obtain ⟨z, hz, he⟩ := ih h
      exact ⟨z, List.mem_cons_of_mem x hz, he⟩

/-- A loop whose iterations record nothing records nothing. -/
theorem Run.trace_collect_eq_nil {α β : Type} (body : α → Run β) (xs : List α)
    (h : ∀ x ∈ xs, (body x).trace = []) : (Run.collect body xs).trace = [] := by
  apply List.eq_nil_iff_forall_not_mem.2
  intro e he
  obtain ⟨x, hx, hxe⟩ := Run.mem_trace_collect body xs e he
  rw [h x hx] at hxe
  cases hxe

/-- The count of the events with property `q` in a sequence is at most their count in the
first part plus a bound for the second part. -/
theorem Run.countP_trace_bind_le {α β : Type} (r : Run α) (k : α → Run β)
    (q : Event → Bool) (bound : Nat) (hk : ∀ a, (k a).trace.countP q ≤ bound) :
    (Run.bind r k).trace.countP q ≤ r.trace.countP q + bound := by
  cases h : r.result with
  | ok a =>
    simp only [Run.bind, h, List.countP_append]
    exact Nat.add_le_add_left (hk a) _
  | fault f =>
    simp only [Run.bind, h]
    exact Nat.le_add_right _ _

/-- In a loop of `n` iterations with at most `bound` events with property `q` each,
there are at most `n * bound` such events. -/
theorem Run.countP_trace_collect_le {α β : Type} (body : α → Run β) (xs : List α)
    (q : Event → Bool) (bound : Nat) (h : ∀ x ∈ xs, (body x).trace.countP q ≤ bound) :
    (Run.collect body xs).trace.countP q ≤ xs.length * bound := by
  induction xs with
  | nil => simp [Run.collect, Run.pure]
  | cons x xs ih =>
    have ih2 := ih fun z hz => h z (List.mem_cons_of_mem x hz)
    have hx := h x (List.mem_cons_self x xs)
    have h1 : (Run.collect body (x :: xs)).trace.countP q ≤
        (body x).trace.countP q + xs.length * bound := by
      simp only [Run.collect]
      apply Run.countP_trace_bind_le
      intro y
      have := Run.countP_trace_bind_le (Run.collect body xs)
        (fun ys => Run.pure (y :: ys)) q 0 (by intro a; simp [Run.pure])
      omega
    have h2 : (xs.length + 1) * bound = xs.length * bound + bound := by ring
    simp only [List.length_cons]
    omega

theorem Run.mem_trace_read {α : Type} (e : Event) (v : List α) (k : Nat) (x : Event) :
    x ∈ (Run.read e v k).trace ↔ x = e := by
  unfold Run.read
  cases v[k]? <;> simp

/-- The guard reads the hint at its index, and only when checksum and bound allow. -/
theorem mem_trace_hint_given (rp : RouteParameters) (checksum_OK in_bound : Bool)
    (k : Nat) (e : Event) (h : e ∈ (hint_given rp checksum_OK in_bound k).trace) :
    e = .hints k ∧ checksum_OK = true ∧ in_bound = true := by
  unfold hint_given at h
  split at h
  · rename_i hc
    simp only [Bool.and_eq_true] at hc
    simp only [Run.bind_def, Run.pure_def, Run.mem_trace_bind, Run.mem_trace_read,
      Run.pure, List.not_mem_nil, and_false, exists_false, or_false] at h
    exact ⟨h, hc.1, hc.2⟩
  · simp [Run.pure_def, Run.pure] at h

/-- Decoding reads the hint at its index and decodes what it read. -/
theorem mem_trace_decode_hint (p : DistanceTablePlugin) (rp : RouteParameters) (k : Nat)
    (e : Event) (h : e ∈ (decode_hint p rp k).trace) :
    e = .hints k ∨ ∃ hint, e = .DecodeFromBase64 hint ∧ rp.hints[k]? = some hint := by
  unfold decode_hint at h
  simp only [Run.bind_def, Run.mem_trace_bind, Run.mem_trace_read, Run.call,
    List.mem_singleton] at h
  rcases h with h | ⟨hint, hr, h⟩
  · exact Or.inl h
  · exact Or.inr ⟨hint, h, (Run.read_result_eq_ok _ _ _ _).1 hr⟩

/-- The bearing is read at its index, and only when there are bearings. -/
theorem mem_trace_bearing_at (rp : RouteParameters) (k : Nat) (e : Event)
    (h : e ∈ (bearing_at rp k).trace) :
    e = .input_bearings k ∧ 0 < rp.bearings.length := by
  unfold bearing_at at h
  split at h
  · rename_i h0
    simp only [Run.bind_def, Run.pure_def, Run.mem_trace_bind, Run.mem_trace_read,
      Run.pure, List.not_mem_nil, and_false, exists_false, or_false] at h
    exact ⟨h, h0⟩
  · simp [Run.pure_def, Run.pure] at h

/-- The range is read at its index, and only when there are bearings. -/
theorem mem_trace_range_at (rp : RouteParameters) (k : Nat) (e : Event)
    (h : e ∈ (range_at rp k).trace) :
    e = .input_bearings k ∧ 0 < rp.bearings.length := by
  unfold range_at at h
  split at h
  · rename_i h0
    simp only [Run.bind_def, Run.pure_def, Run.mem_trace_bind, Run.mem_trace_read] at h
    rcases h with h | ⟨b, -, h⟩
    · exact ⟨h, h0⟩
    · split at h
      · simp only [Run.mem_trace_bind, Run.mem_trace_read, Run.pure, List.not_mem_nil,
          and_false, exists_false, or_false] at h
        exact ⟨h, h0⟩
      · simp [Run.pure] at h
  · simp [Run.pure_def, Run.pure] at h

theorem BOOST_ASSERT_front_is_valid_trace (p : DistanceTablePlugin)
    (v : List PhantomNode) : (BOOST_ASSERT_front_is_valid p v).trace = [] := by
  unfold BOOST_ASSERT_front_is_valid
  split
  · rfl
  · split
    · rfl
    · split <;> rfl

/-- The events of a search: reads of the bearing at its index, the read of the location,
and one call of the facade, at the location read, for one result, with the bearing and
the range computed for its index. -/
theorem mem_trace_find_phantom_node (p : DistanceTablePlugin) (rp : RouteParameters)
    (location : Run FixedPointCoordinate) (k : Nat) (e : Event)
    (h : e ∈ (find_phantom_node p rp location k).trace) :
    (e = .input_bearings k ∧ 0 < rp.bearings.length) ∨ e ∈ location.trace ∨
      ∃ c bearing range,
        e = .IncrementalFindPhantomNodeForCoordinate c 1 bearing range ∧
        location.result = .ok c ∧ (bearing_at rp k).result = .ok bearing ∧
        (range_at rp k).result = .ok range := by
  unfold find_phantom_node at h
  simp only [Run.bind_def, Run.pure_def, Run.mem_trace_bind] at h
  rcases h with h | ⟨b, hb, h⟩
  · exact Or.inl (mem_trace_bearing_at rp k e h)
  · rcases h with h | ⟨r, hr, h⟩
    · exact Or.inl (mem_trace_range_at rp k e h)
    · rcases h with h | ⟨c, hc, h⟩
      · exact Or.inr (Or.inl h)
      · rcases h with h | ⟨v, -, h⟩
        · simp only [Run.call, List.mem_singleton] at h
          exact Or.inr (Or.inr ⟨c, b, r, h, hc, hb, hr⟩)
        · rw [BOOST_ASSERT_front_is_valid_trace] at h
          simp [Run.pure] at h

/-- The events of an iteration: reads of the hint at its index, allowed by checksum and
bound; the decoding of that hint; and the events of a search. -/
theorem mem_trace_resolve (p : DistanceTablePlugin) (rp : RouteParameters)
    (checksum_OK in_bound : Bool) (k : Nat) (location : Run FixedPointCoordinate)
    (e : Event) (h : e ∈ (resolve p rp checksum_OK in_bound k location).trace) :
    (e = .hints k ∧ checksum_OK = true ∧ in_bound = true) ∨
      (∃ hint, e = .DecodeFromBase64 hint ∧ rp.hints[k]? = some hint) ∨
      (e = .input_bearings k ∧ 0 < rp.bearings.length) ∨ e ∈ location.trace ∨
      ∃ c bearing range,
        e = .IncrementalFindPhantomNodeForCoordinate c 1 bearing range ∧
        location.result = .ok c ∧ (bearing_at rp k).result = .ok bearing ∧
        (range_at rp k).result = .ok range := by
  have hfind : e ∈ (find_phantom_node p rp location k).trace → _ := fun hf =>
    (Or.inr (Or.inr (mem_trace_find_phantom_node p rp location k e hf)) :
      (e = .hints k ∧ checksum_OK = true ∧ in_bound = true) ∨
      (∃ hint, e = .DecodeFromBase64 hint ∧ rp.hints[k]? = some hint) ∨
      (e = .input_bearings k ∧ 0 < rp.bearings.length) ∨ e ∈ location.trace ∨
      ∃ c bearing range,
        e = .IncrementalFindPhantomNodeForCoordinate c 1 bearing range ∧
        location.result = .ok c ∧ (bearing_at rp k).result = .ok bearing ∧
        (range_at rp k).result = .ok range)
  unfold resolve at h
  simp only [Run.bind_def, Run.pure_def, Run.mem_trace_bind] at h
  rcases h with h | ⟨given, hg, h⟩
  · exact Or.inl (mem_trace_hint_given rp checksum_OK in_bound k e h)
  · split at h
    · rename_i hgiven
      simp only [Run.mem_trace_bind] at h
      rcases h with h | ⟨node, -, h⟩
      · rcases mem_trace_decode_hint p rp k e h with h | h
        · subst hgiven
          have hg2 : checksum_OK = true ∧ in_bound = true := by
            unfold hint_given at hg
            split at hg
            · rename_i hc
              simpa using hc
            · simp [Run.pure_def, Run.pure] at hg
          exact Or.inl ⟨h, hg2.1, hg2.2⟩
        · exact Or.inr (Or.inl h)
      · split at h
        · simp [Run.pure] at h
        · exact hfind h
    · exact hfind h

/-! ## C11 and C12: the index of hints and bearings -/

/-- The bearing computed for index `k` is 0 without bearings, else that of bearing `k`. -/
theorem bearing_at_result_eq_ok (rp : RouteParameters) (k : Nat) (bearing : Int)
    (h : (bearing_at rp k).result = .ok bearing) :
    (rp.bearings = [] ∧ bearing = 0) ∨
      ∃ b, rp.bearings[k]? = some b ∧ bearing = b.1 := by
  unfold bearing_at at h
  split at h
  · right
    simp only [Run.bind_def, Run.pure_def] at h
    obtain ⟨b, hb, h⟩ := (Run.result_bind_eq_ok _ _ _).1 h
    simp only [Run.pure, Outcome.ok.injEq] at h
    exact ⟨b, (Run.read_result_eq_ok _ _ _ _).1 hb, h.symm⟩
  · rename_i h0
    left
    simp only [Run.pure_def, Run.pure, Outcome.ok.injEq] at h
    exact ⟨List.length_eq_zero.1 (by omega), h.symm⟩

/-- The range computed for index `k` is 180 without bearings, else that of bearing `k`,
or 10 when bearing `k` has none. -/
theorem range_at_result_eq_ok (rp : RouteParameters) (k : Nat) (range : Int)
    (h : (range_at rp k).result = .ok range) :
    (rp.bearings = [] ∧ range = 180) ∨
      ∃ b, rp.bearings[k]? = some b ∧ range = b.2.getD 10 := by
  unfold range_at at h
  split at h
  · right
    simp only [Run.bind_def, Run.pure_def] at h
    obtain ⟨b, hb, h⟩ := (Run.result_bind_eq_ok _ _ _).1 h
    have hb2 := (Run.read_result_eq_ok _ _ _ _).1 hb
    split at h
    · obtain ⟨b2, hb3, h⟩ := (Run.result_bind_eq_ok _ _ _).1 h
      have hb4 := (Run.read_result_eq_ok _ _ _ _).1 hb3
      simp only [Run.pure, Outcome.ok.injEq] at h
      exact ⟨b2, hb4, h.symm⟩
    · rename_i hnone
      simp only [Run.pure, Outcome.ok.injEq] at h
      refine ⟨b, hb2, ?_⟩
      cases hb5 : b.2 with
      | none => simp [← h]
      | some r => simp [hb5] at hnone
  · rename_i h0
    left
    simp only [Run.pure_def, Run.pure, Outcome.ok.injEq] at h
    exact ⟨List.length_eq_zero.1 (by omega), h.symm⟩

/-- The bearing and the range computed for index `k` are the window of entry `k`. -/
theorem bearing_window_of_results (rp : RouteParameters) (k : Nat) (bearing range : Int)
    (hb : (bearing_at rp k).result = .ok bearing)
    (hr : (range_at rp k).result = .ok range) : bearing_window rp k bearing range := by
  rcases bearing_at_result_eq_ok rp k bearing hb with ⟨hnil, h0⟩ | ⟨b, hbk, hbv⟩
  · rcases range_at_result_eq_ok rp k range hr with ⟨-, h180⟩ | ⟨b, hbk, -⟩
    · refine ⟨fun _ => ⟨h0, h180⟩, ?_, ?_⟩
      · intro b r hbr
        simp [hnil] at hbr
      · intro b hbr
        simp [hnil] at hbr
    · simp [hnil] at hbk
  · rcases range_at_result_eq_ok rp k range hr with ⟨hnil, -⟩ | ⟨b2, hbk2, hrv⟩
    · simp [hnil] at hbk
    · rw [hbk] at hbk2
      cases hbk2
      refine ⟨?_, ?_, ?_⟩
      · intro hnil
        simp [hnil] at hbk
      · intro b0 r0 h0
        rw [hbk] at h0
        cases h0
        exact ⟨hbv, by simp [hrv]⟩
      · intro b0 h0
        rw [hbk] at h0
        cases h0
        exact ⟨hbv, by simp [hrv]⟩

/-- In the source loop the index `i + shift_coordinates` does not wrap. -/
theorem source_index_eq (p : DistanceTablePlugin) (rp : RouteParameters) (i : Nat)
    (hfit : representable rp) (hi : i < max_locations_source p rp) :
    (i + shift_coordinates rp) % 4294967296 = i + shift_coordinates rp ∧
      i < rp.sources.length ∧ useSameTgtSrc rp = false ∧
      shift_coordinates rp = rp.destinations.length := by
  obtain ⟨-, hf2, -, -⟩ := hfit
  have hle := max_locations_source_le p rp
  cases hu : useSameTgtSrc rp
  · simp only [hu, Bool.false_eq_true, if_false] at hle
    have hshift : shift_coordinates rp = rp.destinations.length := by
      unfold shift_coordinates size_to_unsigned
      simp only [hu, Bool.false_eq_true, if_false]
      omega
    refine ⟨?_, by omega, rfl, hshift⟩
    rw [hshift]
    omega
  · simp only [hu, if_true] at hle
    omega

/-- The events of iteration `i` of the target loop, by index. -/
theorem mem_trace_target_entry (p : DistanceTablePlugin) (rp : RouteParameters)
    (i : Nat) (e : Event) (h : e ∈ (target_entry p rp i).trace) :
    (e = .hints i ∧ checksum_OK p rp = true ∧ i < rp.hints.length) ∨
      (∃ hint, e = .DecodeFromBase64 hint ∧ rp.hints[i]? = some hint) ∨
      (e = .input_bearings i ∧ 0 < rp.bearings.length) ∨
      (e = .coordinates i ∧ useSameTgtSrc rp = true) ∨
      (e = .destinations i ∧ useSameTgtSrc rp = false) ∨
      ∃ c bearing range,
        e = .IncrementalFindPhantomNodeForCoordinate c 1 bearing range ∧
        (if useSameTgtSrc rp then rp.coordinates else rp.destinations)[i]? = some c ∧
        bearing_window rp i bearing range := by
  unfold target_entry at h
  rcases mem_trace_resolve _ _ _ _ _ _ _ h with ⟨h1, h2, h3⟩ | h | h | h | ⟨c, b, r, h1, h2, h3, h4⟩
  · exact Or.inl ⟨h1, h2, of_decide_eq_true h3⟩
  · exact Or.inr (Or.inl h)
  · exact Or.inr (Or.inr (Or.inl h))
  · cases hu : useSameTgtSrc rp
    · rw [hu] at h
      simp only [Bool.false_eq_true, if_false, Run.mem_trace_read] at h
      exact Or.inr (Or.inr (Or.inr (Or.inr (Or.inl ⟨h, rfl⟩))))
    · rw [hu] at h
      simp only [if_true, Run.mem_trace_read] at h
      exact Or.inr (Or.inr (Or.inr (Or.inl ⟨h, rfl⟩)))
  · refine Or.inr (Or.inr (Or.inr (Or.inr (Or.inr
      ⟨c, b, r, h1, ?_, bearing_window_of_results rp i b r h3 h4⟩))))
    cases hu : useSameTgtSrc rp
    · rw [hu] at h2
      simp only [Bool.false_eq_true, if_false] at h2 ⊢
      exact (Run.read_result_eq_ok _ _ _ _).1 h2
    · rw [hu] at h2
      simp only [if_true] at h2 ⊢
      exact (Run.read_result_eq_ok _ _ _ _).1 h2

/-- The events of iteration `i` of the source loop, by index. -/
theorem mem_trace_source_entry (p : DistanceTablePlugin) (rp : RouteParameters)
    (i : Nat) (e : Event) (hfit : representable rp) (hi : i < max_locations_source p rp)
    (h : e ∈ (source_entry p rp i).trace) :
    (e = .hints (i + shift_coordinates rp) ∧ checksum_OK p rp = true) ∨
      (∃ hint, e = .DecodeFromBase64 hint ∧
        rp.hints[i + shift_coordinates rp]? = some hint) ∨
      (e = .input_bearings (i + shift_coordinates rp) ∧ 0 < rp.bearings.length) ∨
      e = .sources i ∨
      ∃ c bearing range,
        e = .IncrementalFindPhantomNodeForCoordinate c 1 bearing range ∧
        rp.sources[i]? = some c ∧
        bearing_window rp (i + shift_coordinates rp) bearing range := by
  unfold source_entry at h
  rw [(source_index_eq p rp i hfit hi).1] at h
  rcases mem_trace_resolve _ _ _ _ _ _ _ h with ⟨h1, h2, -⟩ | h | h | h | ⟨c, b, r, h1, h2, h3, h4⟩
  · exact Or.inl ⟨h1, h2⟩
  · exact Or.inr (Or.inl h)
  · exact Or.inr (Or.inr (Or.inl h))
  · exact Or.inr (Or.inr (Or.inr (Or.inl ((Run.mem_trace_read _ _ _ _).1 h))))
  · exact Or.inr (Or.inr (Or.inr (Or.inr ⟨c, b, r, h1,
      (Run.read_result_eq_ok _ _ _ _).1 h2, bearing_window_of_results rp _ b r h3 h4⟩)))

/-- C11: index offsetting. Iteration `i` of the target loop reads hints and bearings at
index `i` only, decodes the hint of index `i`, and reads the location of index `i`;
iteration `i` of the source loop reads hints and bearings at index
`i + shift_coordinates` only, decodes the hint of that index, and reads `sources[i]`.
`shift_coordinates` is `destinations.size` in Asymmetric mode and 0 in Symmetric mode. So
in Asymmetric mode no target iteration reads a hint or a bearing at or above
`destinations.size`, and no source iteration reads one below it. -/
theorem C11_index_offsetting (p : DistanceTablePlugin) (rp : RouteParameters)
    (hfit : representable rp) (i k : Nat) :
    ((Event.hints k ∈ (target_entry p rp i).trace ∨
        Event.input_bearings k ∈ (target_entry p rp i).trace ∨
        Event.coordinates k ∈ (target_entry p rp i).trace ∨
        Event.destinations k ∈ (target_entry p rp i).trace) → k = i) ∧
    (∀ hint, Event.DecodeFromBase64 hint ∈ (target_entry p rp i).trace →
      rp.hints[i]? = some hint) ∧
    (i < max_locations_source p rp →
      ((Event.hints k ∈ (source_entry p rp i).trace ∨
          Event.input_bearings k ∈ (source_entry p rp i).trace) →
        k = i + shift_coordinates rp) ∧
      (Event.sources k ∈ (source_entry p rp i).trace → k = i) ∧
      (∀ hint, Event.DecodeFromBase64 hint ∈ (source_entry p rp i).trace →
        rp.hints[i + shift_coordinates rp]? = some hint)) ∧
    (rp.coordinates = [] → shift_coordinates rp = rp.destinations.length) ∧
    (rp.coordinates ≠ [] → shift_coordinates rp = 0) ∧
    (rp.coordinates = [] → i < max_locations_target p rp →
      (Event.hints k ∈ (target_entry p rp i).trace ∨
        Event.input_bearings k ∈ (target_entry p rp i).trace) →
      k < rp.destinations.length) ∧
    (rp.coordinates = [] → i < max_locations_source p rp →
      (Event.hints k ∈ (source_entry p rp i).trace ∨
        Event.input_bearings k ∈ (source_entry p rp i).trace) →
      rp.destinations.length ≤ k ∧ k < rp.destinations.length + rp.sources.length) := by
  have htarget : (Event.hints k ∈ (target_entry p rp i).trace ∨
        Event.input_bearings k ∈ (target_entry p rp i).trace ∨
        Event.coordinates k ∈ (target_entry p rp i).trace ∨
        Event.destinations k ∈ (target_entry p rp i).trace) → k = i := by
    rintro (h | h | h | h) <;>
      rcases mem_trace_target_entry p rp i _ h with
        ⟨h1, -⟩ | ⟨_, h1, -⟩ | ⟨h1, -⟩ | ⟨h1, -⟩ | ⟨h1, -⟩ | ⟨_, _, _, h1, -⟩ <;>
      first
        | exact Event.hints.inj h1
        | exact Event.input_bearings.inj h1
        | exact Event.coordinates.inj h1
        | exact Event.destinations.inj h1
        | cases h1
  have hsource : i < max_locations_source p rp →
      (Event.hints k ∈ (source_entry p rp i).trace ∨
        Event.input_bearings k ∈ (source_entry p rp i).trace) →
      k = i + shift_coordinates rp := by
    intro hi
    rintro (h | h) <;>
      rcases mem_trace_source_entry p rp i _ hfit hi h with
        ⟨h1, -⟩ | ⟨_, h1, -⟩ | ⟨h1, -⟩ | h1 | ⟨_, _, _, h1, -⟩ <;>
      first
        | exact Event.hints.inj h1
        | exact Event.input_bearings.inj h1
        | cases h1
  have hshift : rp.coordinates = [] → shift_coordinates rp = rp.destinations.length := by
    intro hc
    have := hfit.2.1
    unfold shift_coordinates useSameTgtSrc size_to_unsigned
    simp only [hc, List.length_nil, bne_self_eq_false, Bool.false_eq_true, if_false]
    omega
  refine ⟨htarget, ?_, ?_, hshift, ?_, ?_, ?_⟩
  · intro hint h
    rcases mem_trace_target_entry p rp i _ h with
      ⟨h1, -⟩ | ⟨hint2, h1, h2⟩ | ⟨h1, -⟩ | ⟨h1, -⟩ | ⟨h1, -⟩ | ⟨_, _, _, h1, -⟩
    · cases h1
    · cases h1
      exact h2
    · cases h1
    · cases h1
    · cases h1
    · cases h1
  · intro hi
    refine ⟨hsource hi, ?_, ?_⟩
    · intro h
      rcases mem_trace_source_entry p rp i _ hfit hi h with
        ⟨h1, -⟩ | ⟨_, h1, -⟩ | ⟨h1, -⟩ | h1 | ⟨_, _, _, h1, -⟩
      · cases h1
      · cases h1
      · cases h1
      · exact Event.sources.inj h1
      · cases h1
    · intro hint h
      rcases mem_trace_source_entry p rp i _ hfit hi h with
        ⟨h1, -⟩ | ⟨hint2, h1, h2⟩ | ⟨h1, -⟩ | h1 | ⟨_, _, _, h1, -⟩
      · cases h1
      · cases h1
        exact h2
      · cases h1
      · cases h1
      · cases h1
  · intro hc
    cases hl : rp.coordinates with
    | nil => exact absurd hl hc
    | cons c cs => simp [shift_coordinates, useSameTgtSrc, hl]
  · intro hc hi h
    have hk : k = i := htarget (by
      rcases h with h | h
      · exact Or.inl h
      · exact Or.inr (Or.inl h))
    have hle := max_locations_target_le p rp
    have hu : useSameTgtSrc rp = false := by simp [useSameTgtSrc, hc]
    simp only [hu, Bool.false_eq_true, if_false] at hle
    omega
  · intro hc hi h
    have hk := hsource hi h
    have hs := source_index_eq p rp i hfit hi
    rw [hshift hc] at hk
    omega

/-- C11 at the request with two destinations, one source and three hints: the source
iteration 0 reads the hint of index `0 + 2`; and at the request with three bearings: it
reads the bearing of index 2, the target iterations those of index 0 and 1. -/
theorem C11_index_offsetting_witness :
    (source_entry (sample_plugin 10 none) hinted_request 0).trace =
      [.hints 2, .hints 2, .DecodeFromBase64 "de"] ∧
    (2 = 0 + shift_coordinates hinted_request ∧
      shift_coordinates hinted_request = hinted_request.destinations.length) ∧
    (target_entry (sample_plugin 10 none) request_with_bearings 1).trace =
      [.input_bearings 1, .input_bearings 1, .input_bearings 1, .destinations 1,
        .IncrementalFindPhantomNodeForCoordinate c2 1 20 5] ∧
    (source_entry (sample_plugin 10 none) request_with_bearings 0).trace =
      [.input_bearings 2, .input_bearings 2, .input_bearings 2, .sources 0,
        .IncrementalFindPhantomNodeForCoordinate c3 1 30 7] :=
  ⟨by decide,
    ⟨((C11_index_offsetting (sample_plugin 10 none) hinted_request (by decide) 0 2).2.2.1
        (by decide)).1 (Or.inl (by decide)),
      (C11_index_offsetting (sample_plugin 10 none) hinted_request (by decide) 0 2).2.2.2.1
        rfl⟩,
    by decide, by decide⟩

/-- C12: every nearest-edge search of an iteration asks for one result and is given the
bearing window of the iteration's logical index `k` (`i` in the target loop,
`i + shift_coordinates` in the source loop): bearing 0 and range 180 when the request has
no bearing list, bearing `k` with its range when that is explicit, bearing `k` with range
10 when it is not. -/
theorem C12_bearing_window (p : DistanceTablePlugin) (rp : RouteParameters)
    (hfit : representable rp) (i : Nat) (c : FixedPointCoordinate) (n : Nat)
    (bearing range : Int) :
    (Event.IncrementalFindPhantomNodeForCoordinate c n bearing range ∈
        (target_entry p rp i).trace →
      n = 1 ∧ bearing_window rp i bearing range) ∧
    (i < max_locations_source p rp →
      Event.IncrementalFindPhantomNodeForCoordinate c n bearing range ∈
        (source_entry p rp i).trace →
      n = 1 ∧ bearing_window rp (i + shift_coordinates rp) bearing range) := by
  constructor
  · intro h
    rcases mem_trace_target_entry p rp i _ h with
      ⟨h1, -⟩ | ⟨_, h1, -⟩ | ⟨h1, -⟩ | ⟨h1, -⟩ | ⟨h1, -⟩ | ⟨c2, b2, r2, h1, -, hw⟩
    · cases h1
    · cases h1
    · cases h1
    · cases h1
    · cases h1
    · cases h1
      exact ⟨rfl, hw⟩
  · intro hi h
    rcases mem_trace_source_entry p rp i _ hfit hi h with
      ⟨h1, -⟩ | ⟨_, h1, -⟩ | ⟨h1, -⟩ | h1 | ⟨c2, b2, r2, h1, -, hw⟩
    · cases h1
    · cases h1
    · cases h1
    · cases h1
    · cases h1
      exact ⟨rfl, hw⟩

/-- C12 at four searches: without bearings the window is `(0, 180)`; bearing `(10, none)`
gives `(10, 10)`; the bearings `(20, some 5)` and, in the source loop at index `0 + 2`,
`(30, some 7)` give `(20, 5)` and `(30, 7)`. -/
theorem C12_bearing_window_witness :
    (Event.IncrementalFindPhantomNodeForCoordinate c1 1 0 180 ∈
        (target_entry (sample_plugin 10 none) asymmetric_request 0).trace ∧
      bearing_window asymmetric_request 0 0 180) ∧
    (Event.IncrementalFindPhantomNodeForCoordinate c1 1 10 10 ∈
        (target_entry (sample_plugin 10 none) request_with_bearings 0).trace ∧
      bearing_window request_with_bearings 0 10 10) ∧
    (Event.IncrementalFindPhantomNodeForCoordinate c2 1 20 5 ∈
        (target_entry (sample_plugin 10 none) request_with_bearings 1).trace ∧
      bearing_window request_with_bearings 1 20 5) ∧
    (Event.IncrementalFindPhantomNodeForCoordinate c3 1 30 7 ∈
        (source_entry (sample_plugin 10 none) request_with_bearings 0).trace ∧
      bearing_window request_with_bearings (0 + shift_coordinates request_with_bearings)
        30 7) :=
  ⟨⟨by decide, ((C12_bearing_window (sample_plugin 10 none) asymmetric_request (by decide)
      0 c1 1 0 180).1 (by decide)).2⟩,
    ⟨by decide, ((C12_bearing_window (sample_plugin 10 none) request_with_bearings
      (by decide) 0 c1 1 10 10).1 (by decide)).2⟩,
    ⟨by decide, ((C12_bearing_window (sample_plugin 10 none) request_with_bearings
      (by decide) 1 c2 1 20 5).1 (by decide)).2⟩,
    ⟨by decide, ((C12_bearing_window (sample_plugin 10 none) request_with_bearings
      (by decide) 0 c3 1 30 7).2 (by decide) (by decide)).2⟩⟩

/-! ## C13: stale and invalid hints -/

/-- With a checksum that differs from the graph's, the hints have no effect at all: the
run is the same whatever the hints are. -/
theorem HandleRequest_hints_irrelevant_of_checksum_mismatch (p : DistanceTablePlugin)
    (rp : RouteParameters) (hints : List String) (json_result : json.Object)
    (h : rp.check_sum ≠ p.facade.GetCheckSum) :
    HandleRequest p { rp with hints := hints } json_result =
      HandleRequest p rp json_result := by
  have hcs : ∀ hs : List String, checksum_OK p { rp with hints := hs } = false := by
    intro hs
    simp [checksum_OK, h]
  have hcs0 : checksum_OK p rp = false := by simp [checksum_OK, h]
  have hresolve : ∀ (rq : RouteParameters) (in_bound : Bool) (k : Nat)
      (location : Run FixedPointCoordinate),
      resolve p rq false in_bound k location = find_phantom_node p rq location k := by
    intro rq in_bound k location
    simp [resolve, hint_given, Run.bind_def, Run.pure_def, Run.bind, Run.pure]
  have hfind : ∀ (location : Run FixedPointCoordinate) (k : Nat),
      find_phantom_node p { rp with hints := hints } location k =
        find_phantom_node p rp location k := fun _ _ => rfl
  have htarget : target_entry p { rp with hints := hints } = target_entry p rp := by
    funext i
    unfold target_entry
    rw [hcs, hcs0, hresolve, hresolve, hfind]
    rfl
  have hsource : source_entry p { rp with hints := hints } = source_entry p rp := by
    funext i
    unfold source_entry
    rw [hcs, hcs0, hresolve, hresolve, hfind]
    rfl
  unfold HandleRequest phantom_node_target_vector phantom_node_source_vector
  rw [htarget, hsource]
  rfl

/-- With the graph's checksum, an iteration whose hint decodes to an anchor that is not
valid returns what the search returns. -/
theorem resolve_result_of_invalid_hint (p : DistanceTablePlugin) (rp : RouteParameters)
    (in_bound : Bool) (k : Nat) (location : Run FixedPointCoordinate) (hint : String)
    (hhint : rp.hints[k]? = some hint)
    (hinvalid : p.is_valid (p.DecodeFromBase64 hint) p.facade.GetNumberOfNodes = false) :
    (resolve p rp true in_bound k location).result =
      (find_phantom_node p rp location k).result := by
  cases in_bound <;> cases hne : hint.isEmpty <;>
    simp [resolve, hint_given, decode_hint, Run.read, Run.call, Run.bind_def, Run.bind,
      Run.pure_def, Run.pure, hhint, hne, hinvalid]

/-- C13, the code at two requests that differ only in a stale hint: both carry the
graph's checksum, two destinations and one source; the first supplies a hint for each
destination, the second only for the first; the hints decode to an anchor that is not
valid. The first is answered 200. In the second the source loop compares `0` with
`hints.size() - shift_coordinates = 1 - 2`, which wraps, reads `hints[2]` past the end
and the run has no defined outcome. -/
theorem C13_stale_hint_changes_outcome :
    request_with_one_stale_hint =
      { request_with_two_stale_hints with hints := [stale_hint] } ∧
    request_with_two_stale_hints.hints = [stale_hint, stale_hint] ∧
    request_with_two_stale_hints.check_sum =
      (sample_plugin 10 (some [3, 4])).facade.GetCheckSum ∧
    (sample_plugin 10 (some [3, 4])).is_valid
      ((sample_plugin 10 (some [3, 4])).DecodeFromBase64 stale_hint)
      (sample_plugin 10 (some [3, 4])).facade.GetNumberOfNodes = false ∧
    (HandleRequest (sample_plugin 10 (some [3, 4])) request_with_two_stale_hints []).result =
      .ok (200, [("distance_table", .matrix [[3, 4]])]) ∧
    Event.hints 2 ∈
      (HandleRequest (sample_plugin 10 (some [3, 4])) request_with_one_stale_hint []).trace ∧
    (HandleRequest (sample_plugin 10 (some [3, 4])) request_with_one_stale_hint []).result =
      .fault .out_of_range :=
  ⟨rfl, rfl, rfl, by decide, by decide, by decide, by decide⟩

/-! ## C14: unresolvable locations -/

/-- C14, the code with `BOOST_ASSERT` compiled out, at the Symmetric request of two
coordinates: when the search yields no anchor, the empty entries go to the engine and the
answer is 200 with a `distance_table`; likewise when the search yields an anchor that is
not valid against the node count. With `BOOST_ASSERT` compiled in, the same run stops at
the assertion. -/
theorem C14_unresolved_location_passed_on :
    (Event.distance_table [[], []] [] ∈
        (HandleRequest (plugin_finding [] true 10 (some [0, 5, 5, 0]))
          symmetric_request []).trace ∧
      (HandleRequest (plugin_finding [] true 10 (some [0, 5, 5, 0]))
          symmetric_request []).result =
        .ok (200, [("distance_table", .matrix [[0, 5], [5, 0]])])) ∧
    ((plugin_finding [invalid_anchor] true 10 (some [0, 5, 5, 0])).is_valid invalid_anchor
        (plugin_finding [invalid_anchor] true 10
          (some [0, 5, 5, 0])).facade.GetNumberOfNodes = false ∧
      Event.distance_table [[invalid_anchor], [invalid_anchor]] [] ∈
        (HandleRequest (plugin_finding [invalid_anchor] true 10 (some [0, 5, 5, 0]))
          symmetric_request []).trace ∧
      (HandleRequest (plugin_finding [invalid_anchor] true 10 (some [0, 5, 5, 0]))
          symmetric_request []).result =
        .ok (200, [("distance_table", .matrix [[0, 5], [5, 0]])])) ∧
    (HandleRequest (plugin_finding [invalid_anchor] false 10 (some [0, 5, 5, 0]))
        symmetric_request []).result = .fault .assertion := by
  decide

/-! ## C15: rejection before any work -/

/-- C15: a request rejected for ambiguous mode, for a failed coordinate check or for a
bearing-count mismatch is answered 400 by a run without any event, so without a hint
read or decoded, a search or a call of the engine; the result is untouched in the first
two cases, and in the third it differs from the one before the call in `status` only. -/
theorem C15_rejected_before_resolution (p : DistanceTablePlugin) (rp : RouteParameters)
    (json_result : json.Object) :
    (ambiguous rp = true →
      HandleRequest p rp json_result = ⟨[], .ok (400, json_result)⟩) ∧
    (ambiguous rp = false → coordinates_rejected p rp = true →
      HandleRequest p rp json_result = ⟨[], .ok (400, json_result)⟩) ∧
    (ambiguous rp = false → coordinates_rejected p rp = false →
      bearings_rejected rp = true →
      HandleRequest p rp json_result =
        ⟨[], .ok (400, json_result.set "status" (.string bearings_status))⟩ ∧
      ∀ key, key ≠ "status" →
        (json_result.set "status" (.string bearings_status)).get key =
          json_result.get key) ∧
    (¬ passes_validation p rp →
      (HandleRequest p rp json_result).trace = [] ∧
      ∃ json_after, (HandleRequest p rp json_result).result = .ok (400, json_after)) := by
  refine ⟨?_, ?_, ?_, ?_⟩
  · intro h1
    simp [HandleRequest, h1, Run.pure_def, Run.pure]
  · intro h1 h2
    simp [HandleRequest, h1, h2, Run.pure_def, Run.pure]
  · intro h1 h2 h3
    refine ⟨by simp [HandleRequest, h1, h2, h3, Run.pure_def, Run.pure], ?_⟩
    intro key hkey
    exact json.Object.get_set_other _ _ _ _ hkey
  · intro h
    obtain ⟨json_after, hj⟩ := HandleRequest_of_rejected p rp json_result h
    rw [hj]
    exact ⟨rfl, json_after, rfl⟩

/-! ## C18: hint reads -/

/-- The hint reads of the target loop are within the hints. -/
theorem hint_reads_of_target_loop_in_range (p : DistanceTablePlugin)
    (rp : RouteParameters) (k : Nat)
    (h : Event.hints k ∈ (phantom_node_target_vector p rp).trace) :
    k < rp.hints.length := by
  unfold phantom_node_target_vector at h
  obtain ⟨i, -, hi⟩ := Run.mem_trace_collect _ _ _ h
  rcases mem_trace_target_entry p rp i _ hi with
    ⟨h1, -, h2⟩ | ⟨_, h1, -⟩ | ⟨h1, -⟩ | ⟨h1, -⟩ | ⟨h1, -⟩ | ⟨_, _, _, h1, -⟩
  · cases h1
    exact h2
  all_goals cases h1

/-- The hint reads of the source loop are within the hints when the checksum differs or
there are at least `shift_coordinates` hints. -/
theorem hint_reads_of_source_loop_in_range (p : DistanceTablePlugin)
    (rp : RouteParameters) (k : Nat) (hfit : representable rp)
    (hhints : source_hints_in_range p rp)
    (h : Event.hints k ∈ (phantom_node_source_vector p rp).trace) :
    k < rp.hints.length := by
  unfold phantom_node_source_vector at h
  obtain ⟨i, hi, he⟩ := Run.mem_trace_collect _ _ _ h
  have hi := List.mem_range.1 hi
  have hidx := (source_index_eq p rp i hfit hi).1
  unfold source_entry at he
  rw [hidx] at he
  rcases mem_trace_resolve _ _ _ _ _ _ _ he with
    ⟨h1, h2, h3⟩ | ⟨_, h1, -⟩ | ⟨h1, -⟩ | h1 | ⟨_, _, _, h1, -⟩
  · cases h1
    have h3 := of_decide_eq_true h3
    rcases hhints with hh | hh
    · rw [hh] at h2
      cases h2
    · have hlen := hfit.2.2.1
      have : rp.hints.length + 18446744073709551616 - shift_coordinates rp =
          (rp.hints.length - shift_coordinates rp) + 18446744073709551616 := by omega
      rw [this, Nat.add_mod_right, Nat.mod_eq_of_lt (by omega)] at h3
      omega
  · cases h1
  · cases h1
  · have := (Run.mem_trace_read _ _ _ _).1 h1
    cases this
  · cases h1

/-- C18, the code at a request with the graph's checksum, two destinations, one source
and no hints: in the source loop the guard `i < hints.size() - shift_coordinates` holds
at `i = 0`, the difference `0 - 2` wrapping in `std::size_t`, although
`i + shift_coordinates < hints.size()` does not; `hints[2]` is read from the empty vector
and the run has no defined outcome. -/
theorem C18_hint_read_out_of_range :
    request_with_checksum_without_hints.hints.length = 0 ∧
    shift_coordinates request_with_checksum_without_hints = 2 ∧
    checksum_OK (sample_plugin 10 (some [3, 4])) request_with_checksum_without_hints =
      true ∧
    0 < (request_with_checksum_without_hints.hints.length + 18446744073709551616 -
      shift_coordinates request_with_checksum_without_hints) % 18446744073709551616 ∧
    ¬ (0 + shift_coordinates request_with_checksum_without_hints <
      request_with_checksum_without_hints.hints.length) ∧
    Event.hints 2 ∈ (source_entry (sample_plugin 10 (some [3, 4]))
      request_with_checksum_without_hints 0).trace ∧
    Event.hints 2 ∈ (HandleRequest (sample_plugin 10 (some [3, 4]))
      request_with_checksum_without_hints []).trace ∧
    (HandleRequest (sample_plugin 10 (some [3, 4]))
      request_with_checksum_without_hints []).result = .fault .out_of_range := by
  decide

/-! ## The events of a whole run -/

theorem json_row_trace (result_table : List EdgeWeight) (number_of_targets row : Nat) :
    (json_row result_table number_of_targets row).trace = [] := by
  unfold json_row
  split <;> rfl

theorem matrix_json_array_trace (targets sources : PhantomNodeArray)
    (result_table : List EdgeWeight) :
    (matrix_json_array targets sources result_table).trace = [] :=
  Run.trace_collect_eq_nil _ _ fun row _ => json_row_trace result_table _ row

theorem coord_json_array_trace (group : PhantomNodeArray) :
    (coord_json_array group).trace = [] := by
  apply Run.trace_collect_eq_nil
  intro v _
  cases v <;> rfl

/-- The response records no event. -/
theorem respond_trace (rp : RouteParameters) (json_result : json.Object)
    (targets sources : PhantomNodeArray) (result_table : Option (List EdgeWeight)) :
    (respond rp json_result targets sources result_table).trace = [] := by
  apply List.eq_nil_iff_forall_not_mem.2
  intro e he
  cases result_table with
  | none => simp [respond, Run.pure_def, Run.pure] at he
  | some table =>
    simp only [respond, Run.bind_def, Run.pure_def, Run.mem_trace_bind,
      matrix_json_array_trace, List.not_mem_nil, false_or] at he
    obtain ⟨rows, -, he⟩ := he
    split at he
    · simp only [Run.mem_trace_bind, coord_json_array_trace, List.not_mem_nil,
        false_or] at he
      obtain ⟨tc, -, sc, -, he⟩ := he
      split at he <;> simp [Run.pure] at he
    · simp [Run.pure] at he

/-- The events of a run of the handler: those of the target loop, those of the source
loop, and the call of the engine on the two groups; none when validation fails. -/
theorem mem_trace_HandleRequest (p : DistanceTablePlugin) (rp : RouteParameters)
    (json_result : json.Object) (e : Event)
    (h : e ∈ (HandleRequest p rp json_result).trace) :
    passes_validation p rp ∧
      (e ∈ (phantom_node_target_vector p rp).trace ∨
        e ∈ (phantom_node_source_vector p rp).trace ∨
        ∃ targets sources,
          (phantom_node_target_vector p rp).result = .ok targets ∧
          (phantom_node_source_vector p rp).result = .ok sources ∧
          e = .distance_table targets sources) := by
  by_cases hval : passes_validation p rp
  · refine ⟨hval, ?_⟩
    rw [HandleRequest_of_passes p rp json_result hval] at h
    simp only [Run.mem_trace_bind, respond_trace, List.not_mem_nil, and_false,
      exists_false, or_false, Run.call, List.mem_singleton] at h
    rcases h with h | ⟨targets, ht, h⟩
    · exact Or.inl h
    · rcases h with h | ⟨sources, hs, h⟩
      · exact Or.inr (Or.inl h)
      · exact Or.inr (Or.inr ⟨targets, sources, ht, hs, h⟩)
  · obtain ⟨j, hj⟩ := HandleRequest_of_rejected p rp json_result hval
    rw [hj] at h
    cases h

/-! ## C19: location and bearing reads -/

/-- C19: in a run on a request that passed validation, whatever the cap, every read of
`coordinates`, `destinations`, `sources` and `input_bearings` is at an index below the
size of the vector read. -/
theorem C19_reads_in_range (p : DistanceTablePlugin) (rp : RouteParameters)
    (json_result : json.Object) (hfit : representable rp)
    (hval : passes_validation p rp) (k : Nat) :
    (Event.coordinates k ∈ (HandleRequest p rp json_result).trace →
      k < rp.coordinates.length) ∧
    (Event.destinations k ∈ (HandleRequest p rp json_result).trace →
      k < rp.destinations.length) ∧
    (Event.sources k ∈ (HandleRequest p rp json_result).trace →
      k < rp.sources.length) ∧
    (Event.input_bearings k ∈ (HandleRequest p rp json_result).trace →
      k < rp.bearings.length) := by
  have hb := bearings_length_of_accepted rp hfit hval.2.2
  have htle := max_locations_target_le p rp
  have key : ∀ e : Event, e ∈ (HandleRequest p rp json_result).trace →
      (∃ i, i < max_locations_target p rp ∧ e ∈ (target_entry p rp i).trace) ∨
      (∃ i, i < max_locations_source p rp ∧ e ∈ (source_entry p rp i).trace) ∨
      ∃ targets sources, e = .distance_table targets sources := by
    intro e he
    rcases (mem_trace_HandleRequest p rp json_result e he).2 with h | h | ⟨t, s, -, -, h⟩
    · obtain ⟨i, hi, hie⟩ := Run.mem_trace_collect _ _ _ h
      exact Or.inl ⟨i, List.mem_range.1 hi, hie⟩
    · obtain ⟨i, hi, hie⟩ := Run.mem_trace_collect _ _ _ h
      exact Or.inr (Or.inl ⟨i, List.mem_range.1 hi, hie⟩)
    · exact Or.inr (Or.inr ⟨t, s, h⟩)
  refine ⟨?_, ?_, ?_, ?_⟩
  · intro h
    rcases key _ h with ⟨i, hi, he⟩ | ⟨i, hi, he⟩ | ⟨_, _, he⟩
    · rcases mem_trace_target_entry p rp i _ he with
        ⟨h1, -⟩ | ⟨_, h1, -⟩ | ⟨h1, -⟩ | ⟨h1, hu⟩ | ⟨h1, -⟩ | ⟨_, _, _, h1, -⟩
      · cases h1
      · cases h1
      · cases h1
      · cases h1
        simp only [hu, if_true] at htle
        omega
      · cases h1
      · cases h1
    · rcases mem_trace_source_entry p rp i _ hfit hi he with
        ⟨h1, -⟩ | ⟨_, h1, -⟩ | ⟨h1, -⟩ | h1 | ⟨_, _, _, h1, -⟩ <;> cases h1
    · cases he
  · intro h
    rcases key _ h with ⟨i, hi, he⟩ | ⟨i, hi, he⟩ | ⟨_, _, he⟩
    · rcases mem_trace_target_entry p rp i _ he with
        ⟨h1, -⟩ | ⟨_, h1, -⟩ | ⟨h1, -⟩ | ⟨h1, -⟩ | ⟨h1, hu⟩ | ⟨_, _, _, h1, -⟩
      · cases h1
      · cases h1
      · cases h1
      · cases h1
      · cases h1
        simp only [hu, Bool.false_eq_true, if_false] at htle
        omega
      · cases h1
    · rcases mem_trace_source_entry p rp i _ hfit hi he with
        ⟨h1, -⟩ | ⟨_, h1, -⟩ | ⟨h1, -⟩ | h1 | ⟨_, _, _, h1, -⟩ <;> cases h1
    · cases he
  · intro h
    rcases key _ h with ⟨i, hi, he⟩ | ⟨i, hi, he⟩ | ⟨_, _, he⟩
    · rcases mem_trace_target_entry p rp i _ he with
        ⟨h1, -⟩ | ⟨_, h1, -⟩ | ⟨h1, -⟩ | ⟨h1, -⟩ | ⟨h1, -⟩ | ⟨_, _, _, h1, -⟩ <;>
        cases h1
    · rcases mem_trace_source_entry p rp i _ hfit hi he with
        ⟨h1, -⟩ | ⟨_, h1, -⟩ | ⟨h1, -⟩ | h1 | ⟨_, _, _, h1, -⟩
      · cases h1
      · cases h1
      · cases h1
      · have hsrc := (source_index_eq p rp i hfit hi).2.1
        cases h1
        exact hsrc
      · cases h1
    · cases he
  · intro h
    rcases key _ h with ⟨i, hi, he⟩ | ⟨i, hi, he⟩ | ⟨_, _, he⟩
    · rcases mem_trace_target_entry p rp i _ he with
        ⟨h1, -⟩ | ⟨_, h1, -⟩ | ⟨h1, h0⟩ | ⟨h1, -⟩ | ⟨h1, -⟩ | ⟨_, _, _, h1, -⟩
      · cases h1
      · cases h1
      · cases h1
        have hlen := hb h0
        cases hu : useSameTgtSrc rp
        · simp only [hu, Bool.false_eq_true, if_false] at htle hlen
          omega
        · simp only [hu, if_true] at htle hlen
          omega
      · cases h1
      · cases h1
      · cases h1
    · rcases mem_trace_source_entry p rp i _ hfit hi he with
        ⟨h1, -⟩ | ⟨_, h1, -⟩ | ⟨h1, h0⟩ | h1 | ⟨_, _, _, h1, -⟩
      · cases h1
      · cases h1
      · cases h1
        have hlen := hb h0
        obtain ⟨-, hsrc, hu, hshift⟩ := source_index_eq p rp i hfit hi
        simp only [hu, Bool.false_eq_true, if_false] at hlen
        omega
      · cases h1
      · cases h1
    · cases he

/-- C19 at the request with two destinations, one source and three bearings: the run
reads `destinations[0]`, `destinations[1]`, `sources[0]` and the bearings 0, 1 and 2. -/
theorem C19_reads_in_range_witness :
    (HandleRequest (sample_plugin 10 (some [3, 4])) request_with_bearings []).trace.filter
        (fun e => !e.is_search && !e.is_engine_call) =
      [.input_bearings 0, .input_bearings 0, .destinations 0,
        .input_bearings 1, .input_bearings 1, .input_bearings 1, .destinations 1,
        .input_bearings 2, .input_bearings 2, .input_bearings 2, .sources 0] ∧
    2 < request_with_bearings.bearings.length ∧
    1 < request_with_bearings.destinations.length :=
  ⟨by decide,
    (C19_reads_in_range (sample_plugin 10 (some [3, 4])) request_with_bearings []
      (by decide) (by decide) 2).2.2.2 (by decide),
    (C19_reads_in_range (sample_plugin 10 (some [3, 4])) request_with_bearings []
      (by decide) (by decide) 1).2.1 (by decide)⟩

/-! ## C16: coordinate echoing -/

/-- The coordinate array of a group, when it is returned, has one point per entry, in
order: the location of the entry's first anchor. -/
theorem coord_json_array_result_eq_ok (group : PhantomNodeArray)
    (points : List FixedPointCoordinate)
    (h : (coord_json_array group).result = .ok points) :
    points.length = group.length ∧
      ∀ i < group.length, ∃ node rest,
        group[i]? = some (node :: rest) ∧ points[i]? = some node.location := by
  unfold coord_json_array at h
  have hf := (Run.collect_result_eq_ok _ _ _).1 h
  have hlen := hf.length_eq
  refine ⟨hlen.symm, ?_⟩
  intro i hi
  have hi2 : i < points.length := by omega
  have hrel := List.Forall₂.get hf hi hi2
  cases hv : group.get ⟨i, hi⟩ with
  | nil =>
    rw [hv] at hrel
    simp [json_coord, Run.fail] at hrel
  | cons node rest =>
    rw [hv] at hrel
    simp only [json_coord, Run.pure_def, Run.pure, Outcome.ok.injEq] at hrel
    refine ⟨node, rest, ?_, ?_⟩
    · rw [List.getElem?_eq_getElem hi]
      exact congrArg some hv
    · rw [List.getElem?_eq_getElem hi2]
      exact congrArg some hrel.symm

/-- What a returned response to a present table wrote: the matrix, and with
`mapped_points` the coordinate array of the targets and, when it is not empty, that of
the sources. -/
theorem respond_some_result_eq_ok (rp : RouteParameters) (json_result : json.Object)
    (targets sources : PhantomNodeArray) (table : List EdgeWeight) (code : Int)
    (json_after : json.Object)
    (h : (respond rp json_result targets sources (some table)).result =
      .ok (code, json_after)) :
    ∃ rows, (matrix_json_array targets sources table).result = .ok rows ∧
      ((rp.mapped_points = false ∧
          json_after = json_result.set "distance_table" (.matrix rows)) ∨
        (rp.mapped_points = true ∧ ∃ target_points source_points,
          (coord_json_array targets).result = .ok target_points ∧
          (coord_json_array sources).result = .ok source_points ∧
          ((source_points.length ≠ 0 ∧
              json_after = ((json_result.set "distance_table" (.matrix rows)).set
                "target_mapped_coordinates" (.coordinates target_points)).set
                "source_mapped_coordinates" (.coordinates source_points)) ∨
            (source_points.length = 0 ∧
              json_after = (json_result.set "distance_table" (.matrix rows)).set
                "target_mapped_coordinates" (.coordinates target_points))))) := by
  simp only [respond, Run.bind_def, Run.pure_def] at h
  obtain ⟨rows, hrows, h⟩ := (Run.result_bind_eq_ok _ _ _).1 h
  refine ⟨rows, hrows, ?_⟩
  split at h
  · rename_i hm
    right
    obtain ⟨tc, htc, h⟩ := (Run.result_bind_eq_ok _ _ _).1 h
    obtain ⟨sc, hsc, h⟩ := (Run.result_bind_eq_ok _ _ _).1 h
    refine ⟨hm, tc, sc, htc, hsc, ?_⟩
    split at h
    · rename_i hlen
      simp only [Run.pure, Outcome.ok.injEq, Prod.mk.injEq] at h
      exact Or.inl ⟨by simpa using hlen, h.2.symm⟩
    · rename_i hlen
      simp only [Run.pure, Outcome.ok.injEq, Prod.mk.injEq] at h
      exact Or.inr ⟨by simpa using hlen, h.2.symm⟩
  · rename_i hm
    left
    simp only [Run.pure, Outcome.ok.injEq, Prod.mk.injEq] at h
    exact ⟨by simpa using hm, h.2.symm⟩

/-- C16: coordinate echoing on success. Without `mapped_points` the entries
`target_mapped_coordinates` and `source_mapped_coordinates` of the result are as before
the call: neither is emitted. With `mapped_points`, `target_mapped_coordinates` holds one
point per target entry, in group order, point `i` being the location of the first anchor
of target entry `i`; `source_mapped_coordinates` holds one point per source entry, in
group order, when the source group is not empty, and is as before the call when it is
empty. -/
theorem C16_coordinate_echo (p : DistanceTablePlugin) (rp : RouteParameters)
    (json_result json_after : json.Object)
    (h : (HandleRequest p rp json_result).result = .ok (200, json_after)) :
    ∃ targets sources : PhantomNodeArray,
      (phantom_node_target_vector p rp).result = .ok targets ∧
      (phantom_node_source_vector p rp).result = .ok sources ∧
      (rp.mapped_points = false →
        json_after.get "target_mapped_coordinates" =
          json_result.get "target_mapped_coordinates" ∧
        json_after.get "source_mapped_coordinates" =
          json_result.get "source_mapped_coordinates") ∧
      (rp.mapped_points = true →
        (∃ points, json_after.get "target_mapped_coordinates" =
            some (.coordinates points) ∧
          points.length = targets.length ∧
          ∀ i < targets.length, ∃ node rest,
            targets[i]? = some (node :: rest) ∧ points[i]? = some node.location) ∧
        (sources ≠ [] →
          ∃ points, json_after.get "source_mapped_coordinates" =
              some (.coordinates points) ∧
            points.length = sources.length ∧
            ∀ i < sources.length, ∃ node rest,
              sources[i]? = some (node :: rest) ∧ points[i]? = some node.location) ∧
        (sources = [] →
          json_after.get "source_mapped_coordinates" =
            json_result.get "source_mapped_coordinates")) := by
  have hval := passes_validation_of_200 p rp json_result json_after h
  obtain ⟨targets, sources, ht, hs, hr⟩ :=
    HandleRequest_result_eq_ok p rp json_result 200 json_after hval h
  refine ⟨targets, sources, ht, hs, ?_⟩
  cases htable : p.distance_table targets sources with
  | none =>
    rw [htable] at hr
    simp [respond, Run.pure_def, Run.pure] at hr
  | some table =>
    rw [htable] at hr
    obtain ⟨rows, -, hcase⟩ := respond_some_result_eq_ok _ _ _ _ _ _ _ hr
    have hne1 : "target_mapped_coordinates" ≠ "distance_table" := by decide
    have hne2 : "source_mapped_coordinates" ≠ "distance_table" := by decide
    have hne3 : "source_mapped_coordinates" ≠ "target_mapped_coordinates" := by decide
    have hne4 : "target_mapped_coordinates" ≠ "source_mapped_coordinates" := by decide
    rcases hcase with ⟨hm, hj⟩ | ⟨hm, tc, sc, htc, hsc, hj⟩
    · constructor
      · intro _
        rw [hj]
        exact ⟨json.Object.get_set_other _ _ _ _ hne1,
          json.Object.get_set_other _ _ _ _ hne2⟩
      · intro hm2
        rw [hm] at hm2
        cases hm2
    · constructor
      · intro hm2
        rw [hm] at hm2
        cases hm2
      · intro _
        obtain ⟨htlen, htpts⟩ := coord_json_array_result_eq_ok targets tc htc
        obtain ⟨hslen, hspts⟩ := coord_json_array_result_eq_ok sources sc hsc
        rcases hj with ⟨hsc0, hj⟩ | ⟨hsc0, hj⟩
        · refine ⟨⟨tc, ?_, htlen, htpts⟩, ?_, ?_⟩
          · rw [hj, json.Object.get_set_other _ _ _ _ hne4]
            exact json.Object.get_set_self _ _ _
          · intro _
            refine ⟨sc, ?_, hslen, hspts⟩
            rw [hj]
            exact json.Object.get_set_self _ _ _
          · intro hnil
            rw [hnil] at hslen
            exact absurd hslen hsc0
        · refine ⟨⟨tc, ?_, htlen, htpts⟩, ?_, ?_⟩
          · rw [hj]
            exact json.Object.get_set_self _ _ _
          · intro hne
            rw [hsc0] at hslen
            exact absurd (List.length_eq_zero.1 hslen.symm) hne
          · intro _
            rw [hj, json.Object.get_set_other _ _ _ _ hne3]
            exact json.Object.get_set_other _ _ _ _ hne2

/-- C16 at the Asymmetric request of one source and two destinations with coordinate
echoing, and at the Symmetric request of two coordinates with it. -/
theorem C16_coordinate_echo_witness :
    ((HandleRequest (sample_plugin 10 (some [3, 4])) asymmetric_request_mapped []).result =
        .ok (200, [("source_mapped_coordinates", .coordinates [c3]),
          ("target_mapped_coordinates", .coordinates [c1, c2]),
          ("distance_table", .matrix [[3, 4]])]) ∧
      (HandleRequest (sample_plugin 10 (some [0, 5, 5, 0]))
          symmetric_request_mapped []).result =
        .ok (200, [("target_mapped_coordinates", .coordinates [c1, c2]),
          ("distance_table", .matrix [[0, 5], [5, 0]])])) ∧
    ∃ (targets sources : PhantomNodeArray) (points : List FixedPointCoordinate),
      (phantom_node_target_vector (sample_plugin 10 (some [3, 4]))
        asymmetric_request_mapped).result = .ok targets ∧
      (phantom_node_source_vector (sample_plugin 10 (some [3, 4]))
        asymmetric_request_mapped).result = .ok sources ∧
      json.Object.get [("source_mapped_coordinates", .coordinates [c3]),
          ("target_mapped_coordinates", .coordinates [c1, c2]),
          ("distance_table", .matrix [[3, 4]])] "target_mapped_coordinates" =
        some (.coordinates points) ∧
      points.length = targets.length := by
  obtain ⟨targets, sources, ht, hs, -, hon⟩ :=
    C16_coordinate_echo (sample_plugin 10 (some [3, 4])) asymmetric_request_mapped []
      [("source_mapped_coordinates", .coordinates [c3]),
        ("target_mapped_coordinates", .coordinates [c1, c2]),
        ("distance_table", .matrix [[3, 4]])] (by decide)
  obtain ⟨⟨points, hget, hlen, -⟩, -, -⟩ := hon rfl
  exact ⟨⟨by decide, by decide⟩, targets, sources, points, ht, hs, hget, hlen⟩

/-! ## C17: the amount of work -/

theorem Run.countP_trace_bind_le_of_zero {α β : Type} (r : Run α) (k : α → Run β)
    (q : Event → Bool) (bound : Nat) (hr : r.trace.countP q = 0)
    (hk : ∀ a, (k a).trace.countP q ≤ bound) :
    (Run.bind r k).trace.countP q ≤ bound := by
  have := Run.countP_trace_bind_le r k q bound hk
  omega

/-- A search records at most one call of the facade, and no call of the engine. -/
theorem countP_trace_find_phantom_node (p : DistanceTablePlugin) (rp : RouteParameters)
    (location : Run FixedPointCoordinate) (k : Nat)
    (hs : location.trace.countP Event.is_search = 0)
    (he : location.trace.countP Event.is_engine_call = 0) :
    (find_phantom_node p rp location k).trace.countP Event.is_search ≤ 1 ∧
      (find_phantom_node p rp location k).trace.countP Event.is_engine_call = 0 := by
  constructor
  · unfold find_phantom_node
    simp only [Run.bind_def, Run.pure_def]
    apply Run.countP_trace_bind_le_of_zero
    · exact List.countP_eq_zero.2 fun e h => by
        rw [(mem_trace_bearing_at rp k e h).1]; simp [Event.is_search]
    intro bearing
    apply Run.countP_trace_bind_le_of_zero
    · exact List.countP_eq_zero.2 fun e h => by
        rw [(mem_trace_range_at rp k e h).1]; simp [Event.is_search]
    intro range
    apply Run.countP_trace_bind_le_of_zero _ _ _ _ hs
    intro c
    have := Run.countP_trace_bind_le
      (Run.call (.IncrementalFindPhantomNodeForCoordinate c 1 bearing range)
        (p.facade.IncrementalFindPhantomNodeForCoordinate c 1 bearing range))
      (fun v => Run.bind (BOOST_ASSERT_front_is_valid p v) fun _ => Run.pure v)
      Event.is_search 0 (by
        intro v
        apply Run.countP_trace_bind_le_of_zero
        · rw [BOOST_ASSERT_front_is_valid_trace]; rfl
        · intro _; simp [Run.pure])
    simpa [Run.call, Event.is_search] using this
  · apply List.countP_eq_zero.2
    intro e h
    rcases mem_trace_find_phantom_node p rp location k e h with
      ⟨h1, -⟩ | h1 | ⟨_, _, _, h1, -⟩
    · rw [h1]; simp [Event.is_engine_call]
    · exact List.countP_eq_zero.1 he e h1
    · rw [h1]; simp [Event.is_engine_call]

/-- An iteration records at most one call of the facade, and no call of the engine. -/
theorem countP_trace_resolve (p : DistanceTablePlugin) (rp : RouteParameters)
    (checksum_OK in_bound : Bool) (k : Nat) (location : Run FixedPointCoordinate)
    (hs : location.trace.countP Event.is_search = 0)
    (he : location.trace.countP Event.is_engine_call = 0) :
    (resolve p rp checksum_OK in_bound k location).trace.countP Event.is_search ≤ 1 ∧
      (resolve p rp checksum_OK in_bound k location).trace.countP
        Event.is_engine_call = 0 := by
  have hfind := countP_trace_find_phantom_node p rp location k hs he
  constructor
  · unfold resolve
    simp only [Run.bind_def, Run.pure_def]
    apply Run.countP_trace_bind_le_of_zero
    · exact List.countP_eq_zero.2 fun e h => by
        rw [(mem_trace_hint_given rp _ _ k e h).1]; simp [Event.is_search]
    intro given
    split
    · apply Run.countP_trace_bind_le_of_zero
      · apply List.countP_eq_zero.2
        intro e h
        rcases mem_trace_decode_hint p rp k e h with h1 | ⟨_, h1, -⟩ <;>
          · rw [h1]; simp [Event.is_search]
      intro node
      split
      · simp [Run.pure]
      · exact hfind.1
    · exact hfind.1
  · apply List.countP_eq_zero.2
    intro e h
    rcases mem_trace_resolve p rp checksum_OK in_bound k location e h with
      ⟨h1, -⟩ | ⟨_, h1, -⟩ | ⟨h1, -⟩ | h1 | ⟨_, _, _, h1, -⟩
    · rw [h1]; simp [Event.is_engine_call]
    · rw [h1]; simp [Event.is_engine_call]
    · rw [h1]; simp [Event.is_engine_call]
    · exact List.countP_eq_zero.1 he e h1
    · rw [h1]; simp [Event.is_engine_call]

theorem countP_trace_read {α : Type} (e : Event) (v : List α) (k : Nat) (q : Event → Bool)
    (h : q e = false) : (Run.read e v k).trace.countP q = 0 := by
  apply List.countP_eq_zero.2
  intro x hx
  rw [(Run.mem_trace_read e v k x).1 hx, h]
  simp

/-- The target loop makes at most `max_locations` searches and no call of the engine. -/
theorem countP_trace_target_vector (p : DistanceTablePlugin) (rp : RouteParameters) :
    searches (phantom_node_target_vector p rp).trace ≤ max_locations_target p rp ∧
      engine_calls (phantom_node_target_vector p rp).trace = 0 := by
  have hentry : ∀ i, (target_entry p rp i).trace.countP Event.is_search ≤ 1 ∧
      (target_entry p rp i).trace.countP Event.is_engine_call = 0 := by
    intro i
    unfold target_entry
    apply countP_trace_resolve
    · split <;> exact countP_trace_read _ _ _ _ rfl
    · split <;> exact countP_trace_read _ _ _ _ rfl
  unfold searches engine_calls phantom_node_target_vector
  constructor
  · have := Run.countP_trace_collect_le (target_entry p rp)
      (List.range (max_locations_target p rp)) Event.is_search 1
      (fun i _ => (hentry i).1)
    simpa using this
  · have := Run.countP_trace_collect_le (target_entry p rp)
      (List.range (max_locations_target p rp)) Event.is_engine_call 0
      (fun i _ => by rw [(hentry i).2])
    simpa using this

/-- The source loop makes at most `max_locations` searches and no call of the engine. -/
theorem countP_trace_source_vector (p : DistanceTablePlugin) (rp : RouteParameters) :
    searches (phantom_node_source_vector p rp).trace ≤ max_locations_source p rp ∧
      engine_calls (phantom_node_source_vector p rp).trace = 0 := by
  have hentry : ∀ i, (source_entry p rp i).trace.countP Event.is_search ≤ 1 ∧
      (source_entry p rp i).trace.countP Event.is_engine_call = 0 := by
    intro i
    unfold source_entry
    apply countP_trace_resolve
    · exact countP_trace_read _ _ _ _ rfl
    · exact countP_trace_read _ _ _ _ rfl
  unfold searches engine_calls phantom_node_source_vector
  constructor
  · have := Run.countP_trace_collect_le (source_entry p rp)
      (List.range (max_locations_source p rp)) Event.is_search 1
      (fun i _ => (hentry i).1)
    simpa using this
  · have := Run.countP_trace_collect_le (source_entry p rp)
      (List.range (max_locations_source p rp)) Event.is_engine_call 0
      (fun i _ => by rw [(hentry i).2])
    simpa using this

/-- A cap that is not negative bounds its conversion to `unsigned`. -/
theorem static_cast_unsigned_le (cap : Int) (h : 0 ≤ cap) :
    (static_cast_unsigned cap : Int) ≤ cap := by
  unfold static_cast_unsigned
  omega

/-- The events after the two loops: the call of the engine, and nothing else. -/
theorem countP_trace_engine_call (p : DistanceTablePlugin) (rp : RouteParameters)
    (json_result : json.Object) (targets sources : PhantomNodeArray) :
    searches (Run.bind (Run.call (.distance_table targets sources)
        (p.distance_table targets sources)) fun result_table =>
        respond rp json_result targets sources result_table).trace = 0 ∧
      engine_calls (Run.bind (Run.call (.distance_table targets sources)
        (p.distance_table targets sources)) fun result_table =>
        respond rp json_result targets sources result_table).trace = 1 := by
  have htrace : (Run.bind (Run.call (.distance_table targets sources)
      (p.distance_table targets sources)) fun result_table =>
      respond rp json_result targets sources result_table).trace =
      [.distance_table targets sources] := by
    rw [Run.trace_bind_ok _ (rfl : (Run.call (Event.distance_table targets sources)
      (p.distance_table targets sources)).result = .ok _), respond_trace]
    rfl
  rw [htrace]
  exact ⟨rfl, rfl⟩

/-- C17, as stated, fails: with `BOOST_ASSERT` compiled in and a facade whose anchors are
not valid, the Symmetric request of two coordinates passes validation, the cap is 10, and
the run stops at the first assertion without any call of the engine. -/
theorem C17_counterexample :
    passes_validation (plugin_finding [invalid_anchor] false 10 (some [0, 5, 5, 0]))
      symmetric_request ∧
    0 ≤ (plugin_finding [invalid_anchor] false 10
      (some [0, 5, 5, 0])).max_locations_distance_table ∧
    (HandleRequest (plugin_finding [invalid_anchor] false 10 (some [0, 5, 5, 0]))
      symmetric_request []).result = .fault .assertion ∧
    engine_calls (HandleRequest (plugin_finding [invalid_anchor] false 10
      (some [0, 5, 5, 0])) symmetric_request []).trace = 0 := by
  decide

/-- C17, amended: for a request that passes validation and a cap `c ≥ 0`, the target
loop makes at most `c` nearest-edge searches and the source loop at most `c`; in
Symmetric mode the source loop does nothing and leaves an empty group; the run makes no
search outside the two loops; and it calls the engine at most once, exactly once whenever
it returns. -/
theorem C17_work_bounded (p : DistanceTablePlugin) (rp : RouteParameters)
    (json_result : json.Object) (hval : passes_validation p rp)
    (hcap : 0 ≤ p.max_locations_distance_table) :
    (searches (phantom_node_target_vector p rp).trace : Int) ≤
      p.max_locations_distance_table ∧
    (searches (phantom_node_source_vector p rp).trace : Int) ≤
      p.max_locations_distance_table ∧
    (rp.coordinates ≠ [] → phantom_node_source_vector p rp = ⟨[], .ok []⟩) ∧
    searches (HandleRequest p rp json_result).trace ≤
      searches (phantom_node_target_vector p rp).trace +
        searches (phantom_node_source_vector p rp).trace ∧
    engine_calls (HandleRequest p rp json_result).trace ≤ 1 ∧
    (∀ code json_after,
      (HandleRequest p rp json_result).result = .ok (code, json_after) →
      engine_calls (HandleRequest p rp json_result).trace = 1) := by
  have hcast := static_cast_unsigned_le _ hcap
  have ht := countP_trace_target_vector p rp
  have hs := countP_trace_source_vector p rp
  refine ⟨?_, ?_, ?_, ?_, ?_, ?_⟩
  · have h1 : max_locations_target p rp ≤
        static_cast_unsigned p.max_locations_distance_table := by
      unfold max_locations_target
      split <;> exact Nat.min_le_left _ _
    have h2 := ht.1
    omega
  · have h1 : max_locations_source p rp ≤
        static_cast_unsigned p.max_locations_distance_table := by
      unfold max_locations_source
      split
      · exact Nat.min_le_left _ _
      · exact Nat.zero_le _
    have h2 := hs.1
    omega
  · intro hc
    have hu : useSameTgtSrc rp = true := by
      unfold useSameTgtSrc
      cases hl : rp.coordinates with
      | nil => exact absurd hl hc
      | cons c cs => simp
    have hz : max_locations_source p rp = 0 := by simp [max_locations_source, hu]
    unfold phantom_node_source_vector
    rw [hz]
    rfl
  · rw [HandleRequest_of_passes p rp json_result hval]
    unfold searches
    apply Run.countP_trace_bind_le
    intro targets
    have := Run.countP_trace_bind_le (phantom_node_source_vector p rp)
      (fun sources => Run.bind (Run.call (.distance_table targets sources)
        (p.distance_table targets sources)) fun result_table =>
        respond rp json_result targets sources result_table) Event.is_search 0
      (fun sources =>
        Nat.le_of_eq (countP_trace_engine_call p rp json_result targets sources).1)
    simpa using this
  · rw [HandleRequest_of_passes p rp json_result hval]
    unfold engine_calls
    apply Run.countP_trace_bind_le_of_zero _ _ _ _ ht.2
    intro targets
    apply Run.countP_trace_bind_le_of_zero _ _ _ _ hs.2
    intro sources
    exact Nat.le_of_eq (countP_trace_engine_call p rp json_result targets sources).2
  · intro code json_after h
    rw [HandleRequest_of_passes p rp json_result hval] at h ⊢
    obtain ⟨targets, htr, h⟩ := (Run.result_bind_eq_ok _ _ _).1 h
    obtain ⟨sources, hsr, h⟩ := (Run.result_bind_eq_ok _ _ _).1 h
    rw [Run.trace_bind_ok _ htr, Run.trace_bind_ok _ hsr]
    have hc := (countP_trace_engine_call p rp json_result targets sources).2
    have ht2 := ht.2
    have hs2 := hs.2
    unfold engine_calls at hc ht2 hs2 ⊢
    rw [List.countP_append, List.countP_append, ht2, hs2, hc]

/-- C17, amended, at the requests of one source and two destinations and of two
coordinates, with cap 10: three searches and one call of the engine, and two searches,
none of them in the source loop, and one call of the engine. -/
theorem C17_work_bounded_witness :
    (searches (HandleRequest (sample_plugin 10 (some [3, 4]))
        asymmetric_request []).trace = 3 ∧
      engine_calls (HandleRequest (sample_plugin 10 (some [3, 4]))
        asymmetric_request []).trace = 1) ∧
    (searches (phantom_node_target_vector (sample_plugin 10 (some [0, 5, 5, 0]))
        symmetric_request).trace = 2 ∧
      phantom_node_source_vector (sample_plugin 10 (some [0, 5, 5, 0]))
        symmetric_request = ⟨[], .ok []⟩ ∧
      engine_calls (HandleRequest (sample_plugin 10 (some [0, 5, 5, 0]))
        symmetric_request []).trace = 1) :=
  ⟨⟨by decide,
      (C17_work_bounded (sample_plugin 10 (some [3, 4])) asymmetric_request []
        (by decide) (by decide)).2.2.2.2.2 200 [("distance_table", .matrix [[3, 4]])]
        (by decide)⟩,
    by decide,
    (C17_work_bounded (sample_plugin 10 (some [0, 5, 5, 0])) symmetric_request []
      (by decide) (by decide)).2.2.1 (by decide),
    (C17_work_bounded (sample_plugin 10 (some [0, 5, 5, 0])) symmetric_request []
      (by decide) (by decide)).2.2.2.2.2 200
      [("distance_table", .matrix [[0, 5], [5, 0]])] (by decide)⟩

/-! ## C20: the return codes -/

/-- For a request whose sizes are representable, passing validation is being accepted. -/
theorem passes_validation_iff_accepted (p : DistanceTablePlugin) (rp : RouteParameters)
    (hfit : representable rp) : passes_validation p rp ↔ accepted p rp := by
  have hamb : ambiguous rp = false ↔
      ¬ (rp.coordinates ≠ [] ∧ (rp.destinations ≠ [] ∨ rp.sources ≠ [])) := by
    unfold ambiguous useSameTgtSrc
    cases rp.coordinates <;> cases rp.destinations <;> cases rp.sources <;> simp
  have hbear : bearings_rejected rp = false ↔
      (rp.bearings = [] ∨ rp.bearings.length = total_points rp) := by
    unfold bearings_rejected
    rw [nb_coordinates_eq_total_points rp hfit]
    cases hb : rp.bearings with
    | nil => simp
    | cons b bs =>
      simp only [List.length_cons, gt_iff_lt, Nat.zero_lt_succ, decide_True, Bool.true_and,
        bne_eq_false_iff_eq, reduceCtorEq, false_or]
      exact eq_comm
  unfold passes_validation accepted
  rw [hamb, hbear]

/-- A request that fails validation is answered 400 by a run without events, with the
result untouched or with `status` set. -/
theorem HandleRequest_of_rejected_eq (p : DistanceTablePlugin) (rp : RouteParameters)
    (json_result : json.Object) (h : ¬ passes_validation p rp) :
    HandleRequest p rp json_result = ⟨[], .ok (400, json_result)⟩ ∨
      HandleRequest p rp json_result =
        ⟨[], .ok (400, json_result.set "status" (.string bearings_status))⟩ := by
  unfold passes_validation at h
  unfold HandleRequest
  split
  · exact Or.inl rfl
  · split
    · exact Or.inl rfl
    · split
      · exact Or.inr rfl
      · simp_all

/-- The response to a present table with a cost for every pair is 200, when no entry of
a group is empty or no coordinates are echoed. -/
theorem respond_returns_200_of_mapped (rp : RouteParameters) (json_result : json.Object)
    (targets sources : PhantomNodeArray) (table : List EdgeWeight)
    (hlen : number_of_sources targets sources * targets.length ≤ table.length)
    (hne : rp.mapped_points = true →
      (∀ v ∈ targets, v ≠ []) ∧ ∀ v ∈ sources, v ≠ []) :
    ∃ json_after,
      (respond rp json_result targets sources (some table)).result =
        .ok (200, json_after) := by
  obtain ⟨rows, hrows⟩ := matrix_json_array_returns targets sources table hlen
  simp only [respond, Run.bind_def, Run.pure_def]
  rw [Run.result_bind_ok _ hrows]
  split
  · rename_i hm
    obtain ⟨tc, htc⟩ := coord_json_array_returns targets (hne hm).1
    obtain ⟨sc, hsc⟩ := coord_json_array_returns sources (hne hm).2
    rw [Run.result_bind_ok _ htc, Run.result_bind_ok _ hsc]
    split <;> exact ⟨_, rfl⟩
  · exact ⟨_, rfl⟩

/-- C20, as stated, fails. With `BOOST_ASSERT` compiled out and a facade that finds no
anchor, the Symmetric request of two coordinates with coordinate echoing is accepted, the
engine is called and returns a present table, and the run then reads `[0]` of an empty
entry: it does not return 200. With `BOOST_ASSERT` compiled in and a facade whose anchors
are not valid, the accepted request of two coordinates stops at the first assertion, with
an engine that returns a present table whenever called. -/
theorem C20_counterexample :
    (accepted (plugin_finding [] true 10 (some [0, 5, 5, 0])) symmetric_request_mapped ∧
      Event.distance_table [[], []] [] ∈
        (HandleRequest (plugin_finding [] true 10 (some [0, 5, 5, 0]))
          symmetric_request_mapped []).trace ∧
      (plugin_finding [] true 10 (some [0, 5, 5, 0])).distance_table [[], []] [] =
        some [0, 5, 5, 0] ∧
      (HandleRequest (plugin_finding [] true 10 (some [0, 5, 5, 0]))
        symmetric_request_mapped []).result = .fault .out_of_range) ∧
    (accepted (plugin_finding [invalid_anchor] false 10 (some [0, 5, 5, 0]))
        symmetric_request ∧
      (HandleRequest (plugin_finding [invalid_anchor] false 10 (some [0, 5, 5, 0]))
        symmetric_request []).result = .fault .assertion) := by
  decide

/-- C20, amended. A run that returns, returns 200 or 400. It returns 200 only if the
request is accepted (not ambiguous, not rejected by the coordinate check, with no
bearings or exactly `total_points` bearings), both groups are resolved and the engine
returns a present table for them; and it does return 200 if, besides, the table has a
cost for every pair and, when coordinates are echoed, no entry of a group is empty. On
200 the result contains `distance_table`. A request that is not accepted is answered 400,
and so is an accepted one for whose resolved groups the engine returns no table; with 400
the entry `distance_table` of the result is as it was before the call. -/
theorem C20_return_codes (p : DistanceTablePlugin) (rp : RouteParameters)
    (json_result : json.Object) (hfit : representable rp) :
    (∀ code json_after,
      (HandleRequest p rp json_result).result = .ok (code, json_after) →
      code = 200 ∨ code = 400) ∧
    (∀ json_after, (HandleRequest p rp json_result).result = .ok (200, json_after) →
      accepted p rp ∧
      (∃ targets sources table,
        (phantom_node_target_vector p rp).result = .ok targets ∧
        (phantom_node_source_vector p rp).result = .ok sources ∧
        p.distance_table targets sources = some table) ∧
      ∃ rows, json_after.get "distance_table" = some (.matrix rows)) ∧
    (∀ targets sources table, accepted p rp →
      (phantom_node_target_vector p rp).result = .ok targets →
      (phantom_node_source_vector p rp).result = .ok sources →
      p.distance_table targets sources = some table →
      number_of_sources targets sources * targets.length ≤ table.length →
      (rp.mapped_points = true → (∀ v ∈ targets, v ≠ []) ∧ ∀ v ∈ sources, v ≠ []) →
      ∃ json_after, (HandleRequest p rp json_result).result = .ok (200, json_after)) ∧
    (¬ accepted p rp →
      ∃ json_after, HandleRequest p rp json_result = ⟨[], .ok (400, json_after)⟩) ∧
    (∀ targets sources, accepted p rp →
      (phantom_node_target_vector p rp).result = .ok targets →
      (phantom_node_source_vector p rp).result = .ok sources →
      p.distance_table targets sources = none →
      (HandleRequest p rp json_result).result = .ok (400, json_result)) ∧
    (∀ json_after, (HandleRequest p rp json_result).result = .ok (400, json_after) →
      json_after.get "distance_table" = json_result.get "distance_table") := by
  have hiff := passes_validation_iff_accepted p rp hfit
  have hcases : ∀ code json_after,
      (HandleRequest p rp json_result).result = .ok (code, json_after) →
      (code = 400 ∧ (json_after = json_result ∨
          json_after = json_result.set "status" (.string bearings_status))) ∨
        (code = 200 ∧ passes_validation p rp) := by
    intro code json_after h
    by_cases hval : passes_validation p rp
    · obtain ⟨targets, sources, -, -, hr⟩ :=
        HandleRequest_result_eq_ok p rp json_result code json_after hval h
      rcases respond_result_eq_ok _ _ _ _ _ _ _ hr with ⟨-, h400, hj⟩ | ⟨_, _, -, h200, -⟩
      · exact Or.inl ⟨h400, Or.inl hj⟩
      · exact Or.inr ⟨h200, hval⟩
    · left
      rcases HandleRequest_of_rejected_eq p rp json_result hval with hj | hj
      · rw [hj] at h
        simp only [Outcome.ok.injEq, Prod.mk.injEq] at h
        exact ⟨h.1.symm, Or.inl h.2.symm⟩
      · rw [hj] at h
        simp only [Outcome.ok.injEq, Prod.mk.injEq] at h
        exact ⟨h.1.symm, Or.inr h.2.symm⟩
  refine ⟨?_, ?_, ?_, ?_, ?_, ?_⟩
  · intro code json_after h
    rcases hcases code json_after h with ⟨h400, -⟩ | ⟨h200, -⟩
    · exact Or.inr h400
    · exact Or.inl h200
  · intro json_after h
    obtain ⟨targets, sources, table, ht, hs, htable, -, hget⟩ :=
      HandleRequest_200_matrix p rp json_result json_after h
    exact ⟨hiff.1 (passes_validation_of_200 p rp json_result json_after h),
      ⟨targets, sources, table, ht, hs, htable⟩, _, hget⟩
  · intro targets sources table hacc ht hs htable hlen hne
    rw [HandleRequest_result_of_resolved p rp json_result targets sources (hiff.2 hacc)
      ht hs, htable]
    exact respond_returns_200_of_mapped rp json_result targets sources table hlen hne
  · intro hacc
    exact HandleRequest_of_rejected p rp json_result fun hval => hacc (hiff.1 hval)
  · intro targets sources hacc ht hs hnone
    rw [HandleRequest_result_of_resolved p rp json_result targets sources (hiff.2 hacc)
      ht hs, hnone]
    rfl
  · intro json_after h
    rcases hcases 400 json_after h with ⟨-, hj | hj⟩ | ⟨h200, -⟩
    · rw [hj]
    · rw [hj]
      exact json.Object.get_set_other _ _ _ _ (by decide)
    · norm_num at h200

/-- C20, amended, at the Symmetric request of two coordinates: answered 200 with a
`distance_table` when the engine returns `[0, 5, 5, 0]`, 400 when it returns no table;
and at the request with three bearings for two coordinates, which is not accepted. -/
theorem C20_return_codes_witness :
    (∃ json_after, (HandleRequest (sample_plugin 10 (some [0, 5, 5, 0]))
        symmetric_request []).result = .ok (200, json_after)) ∧
    (HandleRequest (sample_plugin 10 none) symmetric_request []).result = .ok (400, []) ∧
    (∃ json_after, HandleRequest (sample_plugin 10 (some [0, 5, 5, 0]))
        symmetric_request_with_three_bearings [] = ⟨[], .ok (400, json_after)⟩) :=
  ⟨(C20_return_codes (sample_plugin 10 (some [0, 5, 5, 0])) symmetric_request []
      (by decide)).2.2.1 [[snap c1], [snap c2]] [] [0, 5, 5, 0] (by decide) (by decide)
      (by decide) rfl (by decide) (by decide),
    (C20_return_codes (sample_plugin 10 none) symmetric_request []
      (by decide)).2.2.2.2.1 [[snap c1], [snap c2]] [] (by decide) (by decide) (by decide)
      rfl,
    (C20_return_codes (sample_plugin 10 (some [0, 5, 5, 0]))
      symmetric_request_with_three_bearings [] (by decide)).2.2.2.1 (by decide)⟩

end DistanceTable
